import Mathlib

/-!
# Data protection policy document and provisioning artifacts: a verification development

Shallow embedding of

* `internal/service/logs/data_protection_policy_document_data_source.go`
  (`dataSourceDataProtectionPolicyDocumentRead`, its `unwrap` closure and the
  `DataProtectionPolicy*` document types), and
* `internal/service/servicecatalog/provisioning_artifacts_data_source.go`
  (`flattenProvisioningArtifactDetails`, `flattenProvisioningArtifactDetail`).

Go values of type `interface{}` are a tagged sum (`Value`); a pointer that may
be nil is an `Option`; a run-time panic is the error side of `Except Panic`.
-/

set_option autoImplicit false

/-! ## Attribute names -/

namespace names

/-- Modelled from the spec: the attribute-name constants of package `names`,
which is not among the sources; each is the schema key the spec and the
schema literals use for the attribute. -/
def AttrConfiguration : String := "configuration"

/-- Modelled from the spec: see `names.AttrConfiguration`. -/
def AttrDescription : String := "description"

/-- Modelled from the spec: see `names.AttrConfiguration`. -/
def AttrName : String := "name"

/-- Modelled from the spec: see `names.AttrConfiguration`. -/
def AttrVersion : String := "version"

/-- Modelled from the spec: see `names.AttrConfiguration`. -/
def AttrJSON : String := "json"

/-- Modelled from the spec: the constant `names.AttrCloudWatchLogs` of package
`names`, which is not among the sources.  The spec names the block without
spelling its key; the key of the block in the data source is
`cloudwatch_logs`.  It is only ever used through this constant. -/
def AttrCloudWatchLogs : String := "cloudwatch_logs"

/-- Modelled from the spec: see `names.AttrConfiguration`. -/
def AttrBucket : String := "bucket"

/-- Modelled from the spec: see `names.AttrConfiguration`. -/
def AttrCreatedTime : String := "created_time"

/-- Modelled from the spec: see `names.AttrConfiguration`. -/
def AttrID : String := "id"

/-- Modelled from the spec: see `names.AttrConfiguration`. -/
def AttrType : String := "type"

end names

namespace Logs

/-! ## Dynamically typed attribute values -/

/-- A Go `interface{}` value as it occurs in an attribute tree.  `nil` is the
untyped nil interface, `map none` is a nil map of type
`map[string]interface{}`, `set` is a `*schema.Set` of strings.  A nil slice
and an empty slice are both `list []`: the code only takes `len` of slices
and ranges over them. -/
inductive Value where
  | nil : Value
  | str (s : String) : Value
  | bool (b : Bool) : Value
  | int (n : Int) : Value
  | list (xs : List Value) : Value
  | map (m : Option (List (String × Value))) : Value
  | set (xs : List String) : Value

/-- A Go `map[string]interface{}`: `none` is the nil map. -/
abbrev TfMap := Option (List (String × Value))

/-- The comparison `v == nil` on an interface value. -/
def Value.isNil : Value → Bool
  | .nil => true
  | _ => false

/-- The type assertion `v.([]interface{})`, with its `ok` flag as `Option`. -/
def Value.asList : Value → Option (List Value)
  | .list xs => some xs
  | _ => none

/-- The type assertion `v.(map[string]interface{})`: `some m` when the dynamic
type is a map (`m` may be the nil map), `none` when the assertion fails. -/
def Value.asMap : Value → Option TfMap
  | .map m => some m
  | _ => none

/-- The type assertion `v.(string)`. -/
def Value.asString : Value → Option String
  | .str s => some s
  | _ => none

/-- The type assertion `v.(*schema.Set)`. -/
def Value.asSet : Value → Option (List String)
  | .set xs => some xs
  | _ => none

/-- Lookup in the entries of a map; a missing key gives the nil interface. -/
def lookup (k : String) : List (String × Value) → Value
  | [] => Value.nil
  | (k', v) :: rest => if k' = k then v else lookup k rest

/-- The index expression `m[k]`: on a nil map or a missing key it is the zero
value of `interface{}`, that is nil. -/
def TfMap.get (m : TfMap) (k : String) : Value :=
  match m with
  | none => Value.nil
  | some es => lookup k es

/-! ## unwrap -/

/-- The closure `unwrap` of `dataSourceDataProtectionPolicyDocumentRead`
(lines 201-219). -/
def unwrap (v : Value) : TfMap × Bool :=
  if v.isNil then
    (none, false)
  else
    match v.asList with
    | some (first :: _) =>
      if first.isNil then
        (some [], true)
      else
        match first.asMap with
        | some (some tfMap) => (some tfMap, true)
        | _ => (none, false)
    | _ => (none, false)

/-! ## Run-time panics -/

/-- The run-time panics the read can raise: a failed single-value type
assertion `x.(T)`, an index out of range, a nil pointer dereference. -/
inductive Panic where
  | typeAssertion : Panic
  | indexOutOfRange : Panic
  | nilPointerDereference : Panic
  deriving DecidableEq, Repr

/-- The single-value assertion `v.(string)`, which panics when it fails. -/
def assertString (v : Value) : Except Panic String :=
  match v.asString with
  | some s => Except.ok s
  | none => Except.error Panic.typeAssertion

/-- The single-value assertion `v.([]interface{})`, which panics when it
fails. -/
def assertList (v : Value) : Except Panic (List Value) :=
  match v.asList with
  | some xs => Except.ok xs
  | none => Except.error Panic.typeAssertion

/-- The index expression `xs[i]` on a slice. -/
def index {α : Type} (xs : List α) (i : Nat) : Except Panic α :=
  match xs.get? i with
  | some x => Except.ok x
  | none => Except.error Panic.indexOutOfRange

/-- Reading a field through a pointer that may be nil. -/
def deref {α : Type} (p : Option α) : Except Panic α :=
  match p with
  | some x => Except.ok x
  | none => Except.error Panic.nilPointerDereference

/-! ## The document types (lines 325-379) -/

structure DataProtectionPolicyCustomDataIdentifier where
  Name : String
  Regex : String
  deriving DecidableEq, Repr

structure DataProtectionPolicyStatementConfiguration where
  CustomDataIdentifiers : List DataProtectionPolicyCustomDataIdentifier
  deriving DecidableEq, Repr

structure DataProtectionPolicyStatementOperationAuditFindingsDestinationCloudWatchLogs where
  LogGroup : String
  deriving DecidableEq, Repr

structure DataProtectionPolicyStatementOperationAuditFindingsDestinationFirehose where
  DeliveryStream : String
  deriving DecidableEq, Repr

structure DataProtectionPolicyStatementOperationAuditFindingsDestinationS3 where
  Bucket : String
  deriving DecidableEq, Repr

structure DataProtectionPolicyStatementOperationAuditFindingsDestination where
  CloudWatchLogs : Option DataProtectionPolicyStatementOperationAuditFindingsDestinationCloudWatchLogs
  Firehose : Option DataProtectionPolicyStatementOperationAuditFindingsDestinationFirehose
  S3 : Option DataProtectionPolicyStatementOperationAuditFindingsDestinationS3
  deriving DecidableEq, Repr

structure DataProtectionPolicyStatementOperationAudit where
  FindingsDestination : Option DataProtectionPolicyStatementOperationAuditFindingsDestination
  deriving DecidableEq, Repr

structure DataProtectionPolicyStatementOperationDeidentifyMaskConfig where
  deriving DecidableEq, Repr

structure DataProtectionPolicyStatementOperationDeidentify where
  MaskConfig : Option DataProtectionPolicyStatementOperationDeidentifyMaskConfig
  deriving DecidableEq, Repr

structure DataProtectionPolicyStatementOperation where
  Audit : Option DataProtectionPolicyStatementOperationAudit
  Deidentify : Option DataProtectionPolicyStatementOperationDeidentify
  deriving DecidableEq, Repr

structure DataProtectionPolicyStatement where
  Sid : String
  DataIdentifiers : List String
  Operation : Option DataProtectionPolicyStatementOperation
  deriving DecidableEq, Repr

structure DataProtectionPolicyDocument where
  Configuration : Option DataProtectionPolicyStatementConfiguration
  Description : String
  Name : String
  Statements : List DataProtectionPolicyStatement
  Version : String
  deriving DecidableEq, Repr

/-! ## Collaborators declared outside the sources -/

/-- The functions the read calls whose bodies are outside the sources, taken
as parameters: `tfjson.EncodeToStringIndent` (document, line prefix, indent;
an error is its message), `create.StringHashcode` and
`flex.ExpandStringValueSet`. -/
structure Deps where
  EncodeToStringIndent : DataProtectionPolicyDocument → String → String → Except String String
  StringHashcode : String → Int
  ExpandStringValueSet : List String → List String

/-- The severity of a diagnostic. -/
inductive Severity where
  | Error : Severity
  | Warning : Severity
  deriving DecidableEq, Repr

/-- One `diag.Diagnostic`. -/
structure Diagnostic where
  Severity : Severity
  Summary : String
  deriving DecidableEq, Repr

/-- A `diag.Diagnostics`. -/
abbrev Diagnostics := List Diagnostic

/-- Modelled from the spec: `sdkdiag.AppendErrorf` (package `sdkdiag` is not
among the sources) appends one error diagnostic carrying the message. -/
def AppendErrorf (diags : Diagnostics) (msg : String) : Diagnostics :=
  diags ++ [{ Severity := Severity.Error, Summary := msg }]

/-- Modelled from the spec: `sdkdiag.AppendFromErr` (not among the sources)
appends the error, verbatim, as one error diagnostic. -/
def AppendFromErr (diags : Diagnostics) (err : String) : Diagnostics :=
  diags ++ [{ Severity := Severity.Error, Summary := err }]

/-- The decimal rendering `strconv.Itoa`. -/
def Itoa (n : Int) : String := toString n

/-! ## Resource data -/

/-- A `*schema.ResourceData`: the attribute tree read by `d.Get` and written
by `d.Set`, and the identifier written by `d.SetId`. -/
structure ResourceData where
  attrs : List (String × Value)
  id : String

/-- The call `d.Get(key)`. -/
def ResourceData.Get (d : ResourceData) (key : String) : Value :=
  lookup key d.attrs

/-- Writing one entry of a map: the first entry with the key is replaced, a
new key is added at the end. -/
def setEntry (k : String) (v : Value) : List (String × Value) → List (String × Value)
  | [] => [(k, v)]
  | (k', v') :: rest => if k' = k then (k, v) :: rest else (k', v') :: setEntry k v rest

/-- The call `d.Set(key, value)` on a string attribute, the only use the
policy-document read makes of it: `d.Get` reads the string back as written. -/
def ResourceData.Set (d : ResourceData) (key : String) (v : Value) : ResourceData :=
  { d with attrs := setEntry key v d.attrs }

/-- The call `d.SetId(id)`. -/
def ResourceData.SetId (d : ResourceData) (id : String) : ResourceData :=
  { d with id := id }

/-! ## Expanding the attribute tree (lines 221-301) -/

/-- One iteration of the loop over `custom_data_identifier` (lines 225-235):
an element that is not a map is skipped, a map is appended after its `name`
and `regex` are asserted to be strings. -/
def customDataIdentifierStep (acc : List DataProtectionPolicyCustomDataIdentifier)
    (tfMapRaw : Value) : Except Panic (List DataProtectionPolicyCustomDataIdentifier) :=
  match tfMapRaw.asMap with
  | none => Except.ok acc
  | some tfMap =>
    match assertString (tfMap.get names.AttrName) with
    | Except.error p => Except.error p
    | Except.ok name =>
      match assertString (tfMap.get "regex") with
      | Except.error p => Except.error p
      | Except.ok regex => Except.ok (acc ++ [{ Name := name, Regex := regex }])

/-- The loop of lines 225-235, from the identifiers appended so far. -/
def customDataIdentifierLoop (acc : List DataProtectionPolicyCustomDataIdentifier) :
    List Value → Except Panic (List DataProtectionPolicyCustomDataIdentifier)
  | [] => Except.ok acc
  | tfMapRaw :: rest =>
    match customDataIdentifierStep acc tfMapRaw with
    | Except.error p => Except.error p
    | Except.ok acc' => customDataIdentifierLoop acc' rest

/-- Lines 221-237: the `Configuration` field of the document. -/
def expandConfiguration (v : Value) :
    Except Panic (Option DataProtectionPolicyStatementConfiguration) :=
  match unwrap v with
  | (tfMap, true) =>
    match (tfMap.get "custom_data_identifier").asList with
    | some tfList =>
      if tfList.length > 0 then
        match customDataIdentifierLoop [] tfList with
        | Except.error p => Except.error p
        | Except.ok ids => Except.ok (some { CustomDataIdentifiers := ids })
      else
        Except.ok (some { CustomDataIdentifiers := [] })
    | none => Except.ok (some { CustomDataIdentifiers := [] })
  | (_, false) => Except.ok none

/-- Lines 269-273: the `CloudWatchLogs` field. -/
def expandCloudWatchLogs (v : Value) :
    Except Panic (Option DataProtectionPolicyStatementOperationAuditFindingsDestinationCloudWatchLogs) :=
  match unwrap v with
  | (m, true) =>
    match assertString (m.get "log_group") with
    | Except.error p => Except.error p
    | Except.ok s => Except.ok (some { LogGroup := s })
  | (_, false) => Except.ok none

/-- Lines 275-279: the `Firehose` field. -/
def expandFirehose (v : Value) :
    Except Panic (Option DataProtectionPolicyStatementOperationAuditFindingsDestinationFirehose) :=
  match unwrap v with
  | (m, true) =>
    match assertString (m.get "delivery_stream") with
    | Except.error p => Except.error p
    | Except.ok s => Except.ok (some { DeliveryStream := s })
  | (_, false) => Except.ok none

/-- Lines 281-285: the `S3` field. -/
def expandS3 (v : Value) :
    Except Panic (Option DataProtectionPolicyStatementOperationAuditFindingsDestinationS3) :=
  match unwrap v with
  | (m, true) =>
    match assertString (m.get names.AttrBucket) with
    | Except.error p => Except.error p
    | Except.ok s => Except.ok (some { Bucket := s })
  | (_, false) => Except.ok none

/-- Lines 265-286: the `FindingsDestination` field. -/
def expandFindingsDestination (v : Value) :
    Except Panic (Option DataProtectionPolicyStatementOperationAuditFindingsDestination) :=
  match unwrap v with
  | (m, true) =>
    match expandCloudWatchLogs (m.get names.AttrCloudWatchLogs) with
    | Except.error p => Except.error p
    | Except.ok cloudWatchLogs =>
      match expandFirehose (m.get "firehose") with
      | Except.error p => Except.error p
      | Except.ok firehose =>
        match expandS3 (m.get "s3") with
        | Except.error p => Except.error p
        | Except.ok s3 =>
          Except.ok (some { CloudWatchLogs := cloudWatchLogs, Firehose := firehose, S3 := s3 })
  | (_, false) => Except.ok none

/-- Lines 261-287: the `Audit` field. -/
def expandAudit (v : Value) : Except Panic (Option DataProtectionPolicyStatementOperationAudit) :=
  match unwrap v with
  | (m, true) =>
    match expandFindingsDestination (m.get "findings_destination") with
    | Except.error p => Except.error p
    | Except.ok findingsDestination =>
      Except.ok (some { FindingsDestination := findingsDestination })
  | (_, false) => Except.ok none

/-- Lines 293-298: the `MaskConfig` field. -/
def expandMaskConfig (v : Value) :
    Option DataProtectionPolicyStatementOperationDeidentifyMaskConfig :=
  match unwrap v with
  | (_, true) => some {}
  | (_, false) => none

/-- Lines 289-299: the `Deidentify` field. -/
def expandDeidentify (v : Value) : Option DataProtectionPolicyStatementOperationDeidentify :=
  match unwrap v with
  | (m, true) => some { MaskConfig := expandMaskConfig (m.get "mask_config") }
  | (_, false) => none

/-- Lines 257-300: the `Operation` field. -/
def expandOperation (v : Value) : Except Panic (Option DataProtectionPolicyStatementOperation) :=
  match unwrap v with
  | (m, true) =>
    match expandAudit (m.get "audit") with
    | Except.error p => Except.error p
    | Except.ok audit =>
      Except.ok (some { Audit := audit, Deidentify := expandDeidentify (m.get "deidentify") })
  | (_, false) => Except.ok none

/-- Lines 249-251: the `Sid` field. -/
def expandSid (v : Value) : String :=
  match v.asString with
  | some s => if s ≠ "" then s else ""
  | none => ""

/-- Lines 253-255: the `DataIdentifiers` field. -/
def expandDataIdentifiers (deps : Deps) (v : Value) : List String :=
  match v.asSet with
  | some s => if s.length > 0 then deps.ExpandStringValueSet s else []
  | none => []

/-- Lines 246-300: the statement built from one statement map. -/
def expandStatement (deps : Deps) (m : TfMap) : Except Panic DataProtectionPolicyStatement :=
  match expandOperation (m.get "operation") with
  | Except.error p => Except.error p
  | Except.ok operation =>
    Except.ok
      { Sid := expandSid (m.get "sid")
        DataIdentifiers := expandDataIdentifiers deps (m.get "data_identifiers")
        Operation := operation }

/-- The loop of lines 239-301, from the statements appended so far: an element
that is not a map, or is the nil map, is skipped. -/
def statementLoop (deps : Deps) (acc : List DataProtectionPolicyStatement) :
    List Value → Except Panic (List DataProtectionPolicyStatement)
  | [] => Except.ok acc
  | statementIface :: rest =>
    match statementIface.asMap with
    | some (some m) =>
      match expandStatement deps (some m) with
      | Except.error p => Except.error p
      | Except.ok statement => statementLoop deps (acc ++ [statement]) rest
    | _ => statementLoop deps acc rest

/-- Lines 193-301: the document expanded from the attribute tree. -/
def expandDocument (deps : Deps) (d : ResourceData) : Except Panic DataProtectionPolicyDocument :=
  match assertString (d.Get names.AttrDescription) with
  | Except.error p => Except.error p
  | Except.ok description =>
    match assertString (d.Get names.AttrName) with
    | Except.error p => Except.error p
    | Except.ok name =>
      match assertString (d.Get names.AttrVersion) with
      | Except.error p => Except.error p
      | Except.ok version =>
        match expandConfiguration (d.Get names.AttrConfiguration) with
        | Except.error p => Except.error p
        | Except.ok configuration =>
          match assertList (d.Get "statement") with
          | Except.error p => Except.error p
          | Except.ok statementList =>
            match statementLoop deps [] statementList with
            | Except.error p => Except.error p
            | Except.ok statements =>
              Except.ok
                { Configuration := configuration
                  Description := description
                  Name := name
                  Statements := statements
                  Version := version }

/-! ## Validation, serialization and the read (lines 303-322) -/

/-- The message of line 306. -/
def firstStatementMessage : String :=
  "the first policy statement must contain only the audit operation"

/-- The message of line 310. -/
def secondStatementMessage : String :=
  "the second policy statement must contain only the deidentify operation"

/-- Lines 303-322, on the expanded document: the two statement checks, then
serialization and the two writes to the resource data. -/
def validateAndStore (deps : Deps) (d : ResourceData) (document : DataProtectionPolicyDocument)
    (diags : Diagnostics) : Except Panic (Diagnostics × ResourceData) :=
  match index document.Statements 0 with
  | Except.error p => Except.error p
  | Except.ok statement0 =>
    match deref statement0.Operation with
    | Except.error p => Except.error p
    | Except.ok op0 =>
      if op0.Audit.isNone || op0.Deidentify.isSome then
        Except.ok (AppendErrorf diags firstStatementMessage, d)
      else
        match index document.Statements 1 with
        | Except.error p => Except.error p
        | Except.ok statement1 =>
          match deref statement1.Operation with
          | Except.error p => Except.error p
          | Except.ok op1 =>
            if op1.Audit.isSome || op1.Deidentify.isNone then
              Except.ok (AppendErrorf diags secondStatementMessage, d)
            else
              match deps.EncodeToStringIndent document "" "  " with
              | Except.error err => Except.ok (AppendFromErr diags err, d)
              | Except.ok jsonString =>
                Except.ok
                  (diags,
                    (d.Set names.AttrJSON (Value.str jsonString)).SetId
                      (Itoa (deps.StringHashcode jsonString)))

/-- The function `dataSourceDataProtectionPolicyDocumentRead` (lines 190-323):
the diagnostics it returns and the resource data it leaves, or the panic it
raises. -/
def dataSourceDataProtectionPolicyDocumentRead (deps : Deps) (d : ResourceData) :
    Except Panic (Diagnostics × ResourceData) :=
  match expandDocument deps d with
  | Except.error p => Except.error p
  | Except.ok document => validateAndStore deps d document []

/-! ## The leaf types the schema gives (lines 25-187)

The read asserts the type of some leaves without a check.  The schema types
those leaves: `description`, `name` and `version` are `TypeString`,
`statement` is a `TypeList`, and `log_group`, `delivery_stream`, `bucket`,
`name` and `regex` are required `TypeString` attributes of their blocks. -/

/-- The entry `m[key]` is a string. -/
def hasString (m : TfMap) (key : String) : Bool :=
  ((m.get key).asString).isSome

/-- A block that `unwrap` reports present satisfies `inner`. -/
def blockTyped (v : Value) (inner : TfMap → Bool) : Bool :=
  match unwrap v with
  | (m, true) => inner m
  | (_, false) => true

/-- The required strings of the three destination blocks. -/
def findingsDestinationTyped (m : TfMap) : Bool :=
  blockTyped (m.get names.AttrCloudWatchLogs) (fun b => hasString b "log_group") &&
  blockTyped (m.get "firehose") (fun b => hasString b "delivery_stream") &&
  blockTyped (m.get "s3") (fun b => hasString b names.AttrBucket)

/-- The required strings below an `audit` block. -/
def auditTyped (m : TfMap) : Bool :=
  blockTyped (m.get "findings_destination") findingsDestinationTyped

/-- The required strings below an `operation` block. -/
def operationTyped (m : TfMap) : Bool :=
  blockTyped (m.get "audit") auditTyped

/-- The required strings below a statement map. -/
def statementTyped (m : TfMap) : Bool :=
  blockTyped (m.get "operation") operationTyped

/-- An element of the `statement` list: a non-nil map is typed as a
statement. -/
def statementElemTyped (x : Value) : Bool :=
  match x.asMap with
  | some (some m) => statementTyped (some m)
  | _ => true

/-- An element of `custom_data_identifier`: a map carries `name` and `regex`
as strings. -/
def customDataIdentifierTyped (x : Value) : Bool :=
  match x.asMap with
  | some m => hasString m names.AttrName && hasString m "regex"
  | none => true

/-- The required strings below a `configuration` block. -/
def configurationTyped (m : TfMap) : Bool :=
  match (m.get "custom_data_identifier").asList with
  | some xs => xs.all customDataIdentifierTyped
  | none => true

/-- The attribute tree carries the leaf types of the schema. -/
def schemaTyped (d : ResourceData) : Bool :=
  ((d.Get names.AttrDescription).asString).isSome &&
  ((d.Get names.AttrName).asString).isSome &&
  ((d.Get names.AttrVersion).asString).isSome &&
  blockTyped (d.Get names.AttrConfiguration) configurationTyped &&
  (match (d.Get "statement").asList with
   | some xs => xs.all statementElemTyped
   | none => false)

/-- An error diagnostic with the given message. -/
def errorDiagnostic (msg : String) : Diagnostic :=
  { Severity := Severity.Error, Summary := msg }

/-- The block `unwrap` reports present. -/
def present (v : Value) : Bool := (unwrap v).2

/-! ## Presence of nested blocks -/

/-- Following a path of block names from a map with `unwrap`: the map of the
innermost block, and whether every block on the path is present. -/
def blockAt (m : TfMap) : List String → TfMap × Bool
  | [] => (m, true)
  | k :: ks =>
    match unwrap (m.get k) with
    | (m', true) => blockAt m' ks
    | (_, false) => (none, false)

/-- The block at the end of the path is present, and so is every enclosing
block. -/
def presentAt (m : TfMap) (path : List String) : Bool :=
  (blockAt m path).2

/-- The block `v` is present, and below it every block of the path. -/
def presentFrom (v : Value) (path : List String) : Bool :=
  match unwrap v with
  | (m, true) => presentAt m path
  | (_, false) => false

/-- The `Audit` of a statement, through its `Operation`. -/
def auditOf (st : DataProtectionPolicyStatement) :
    Option DataProtectionPolicyStatementOperationAudit :=
  st.Operation.bind (fun o => o.Audit)

/-- The `FindingsDestination` of a statement. -/
def findingsDestinationOf (st : DataProtectionPolicyStatement) :
    Option DataProtectionPolicyStatementOperationAuditFindingsDestination :=
  (auditOf st).bind (fun a => a.FindingsDestination)

/-- The `CloudWatchLogs` of a statement. -/
def cloudWatchLogsOf (st : DataProtectionPolicyStatement) :
    Option DataProtectionPolicyStatementOperationAuditFindingsDestinationCloudWatchLogs :=
  (findingsDestinationOf st).bind (fun f => f.CloudWatchLogs)

/-- The `Firehose` of a statement. -/
def firehoseOf (st : DataProtectionPolicyStatement) :
    Option DataProtectionPolicyStatementOperationAuditFindingsDestinationFirehose :=
  (findingsDestinationOf st).bind (fun f => f.Firehose)

/-- The `S3` of a statement. -/
def s3Of (st : DataProtectionPolicyStatement) :
    Option DataProtectionPolicyStatementOperationAuditFindingsDestinationS3 :=
  (findingsDestinationOf st).bind (fun f => f.S3)

/-- The `Deidentify` of a statement, through its `Operation`. -/
def deidentifyOf (st : DataProtectionPolicyStatement) :
    Option DataProtectionPolicyStatementOperationDeidentify :=
  st.Operation.bind (fun o => o.Deidentify)

/-- The `MaskConfig` of a statement. -/
def maskConfigOf (st : DataProtectionPolicyStatement) :
    Option DataProtectionPolicyStatementOperationDeidentifyMaskConfig :=
  (deidentifyOf st).bind (fun x => x.MaskConfig)

/-- The elements of a `statement` list the loop of lines 239-301 does not
skip: the non-nil maps. -/
def statementMaps (xs : List Value) : List TfMap :=
  xs.filterMap (fun x =>
    match x.asMap with
    | some (some m) => some (some m)
    | _ => none)

/-- Each pointer field of the statement is non-nil exactly when its block, and
every block around it, is present in the statement map. -/
def PresenceAgrees (m : TfMap) (st : DataProtectionPolicyStatement) : Prop :=
  st.Operation.isSome = presentAt m ["operation"] ∧
  (auditOf st).isSome = presentAt m ["operation", "audit"] ∧
  (findingsDestinationOf st).isSome =
    presentAt m ["operation", "audit", "findings_destination"] ∧
  (cloudWatchLogsOf st).isSome =
    presentAt m ["operation", "audit", "findings_destination", names.AttrCloudWatchLogs] ∧
  (firehoseOf st).isSome =
    presentAt m ["operation", "audit", "findings_destination", "firehose"] ∧
  (s3Of st).isSome = presentAt m ["operation", "audit", "findings_destination", "s3"] ∧
  (deidentifyOf st).isSome = presentAt m ["operation", "deidentify"] ∧
  (maskConfigOf st).isSome = presentAt m ["operation", "deidentify", "mask_config"]

/-! ## Sample trees -/

/-- A sample statement map: an audit operation with an empty findings
destination. -/
def sampleAuditStatement : List (String × Value) :=
  [("sid", Value.str "audit"),
   ("data_identifiers", Value.set ["EmailAddress"]),
   ("operation", Value.list [Value.map (some
      [("audit", Value.list [Value.map (some
          [("findings_destination", Value.list [Value.nil])])])])])]

/-- A sample statement map: a deidentify operation with an empty mask
configuration. -/
def sampleDeidentifyStatement : List (String × Value) :=
  [("data_identifiers", Value.set ["EmailAddress"]),
   ("operation", Value.list [Value.map (some
      [("deidentify", Value.list [Value.map (some
          [("mask_config", Value.list [Value.nil])])])])])]

/-- A sample attribute tree with the two given statement maps. -/
def sampleTree (s0 s1 : List (String × Value)) : ResourceData :=
  { attrs :=
      [("description", Value.str ""),
       ("name", Value.str "example"),
       ("version", Value.str "2021-06-01"),
       ("configuration", Value.list []),
       ("statement", Value.list [Value.map (some s0), Value.map (some s1)])]
    id := "" }

/-- Sample collaborators: a serializer that renders the name of the document,
a hash that is the length of the text, and the identity on sets. -/
def sampleDeps : Deps :=
  { EncodeToStringIndent := fun doc _ _ => Except.ok doc.Name
    StringHashcode := fun s => s.length
    ExpandStringValueSet := fun xs => xs }

/-! ## Serialization

The encoder `tfjson.EncodeToStringIndent` and the set conversion
`flex.ExpandStringValueSet` are not among the sources.  They are modelled
here from the spec and from the field tags of the document types (lines
325-379): every field is tagged `omitempty`, and `Statements`,
`CustomDataIdentifiers` and `DataIdentifiers` are renamed `Statement`,
`CustomDataIdentifier` and `DataIdentifier`. -/

/-- A JSON text as a tree; the fields of an object are in output order. -/
inductive Json where
  | str (s : String) : Json
  | arr (xs : List Json) : Json
  | obj (fields : List (String × Json)) : Json

/-- The first field with the given key. -/
def fieldOf (k : String) : List (String × Json) → Option Json
  | [] => none
  | (k', v) :: rest => if k' = k then some v else fieldOf k rest

/-- The member `k` of an object, if the tree is an object that has it. -/
def Json.field? (j : Json) (k : String) : Option Json :=
  match j with
  | Json.obj fields => fieldOf k fields
  | _ => none

/-- The tree reached by a path of keys. -/
def Json.path? (j : Json) : List String → Option Json
  | [] => some j
  | k :: ks =>
    match j.field? k with
    | some j' => j'.path? ks
    | none => none

/-- A string field tagged `omitempty`: omitted when empty. -/
def omitEmptyString (key : String) (s : String) : List (String × Json) :=
  if s = "" then [] else [(key, Json.str s)]

/-- A pointer field tagged `omitempty`: omitted when nil. -/
def omitNil {α : Type} (key : String) (p : Option α) (enc : α → Json) : List (String × Json) :=
  match p with
  | none => []
  | some x => [(key, enc x)]

/-- A slice field tagged `omitempty`: omitted when its length is zero. -/
def omitEmptySlice {α : Type} (key : String) (xs : List α) (enc : α → Json) :
    List (String × Json) :=
  if xs.length = 0 then [] else [(key, Json.arr (xs.map enc))]

/-- Modelled from the spec: the JSON tree of a custom data identifier, fields
in declared order, empty ones omitted. -/
def marshalCustomDataIdentifier (x : DataProtectionPolicyCustomDataIdentifier) : Json :=
  Json.obj (omitEmptyString "Name" x.Name ++ omitEmptyString "Regex" x.Regex)

/-- Modelled from the spec: the JSON tree of a configuration. -/
def marshalConfiguration (x : DataProtectionPolicyStatementConfiguration) : Json :=
  Json.obj (omitEmptySlice "CustomDataIdentifier" x.CustomDataIdentifiers
    marshalCustomDataIdentifier)

/-- Modelled from the spec: the JSON tree of a CloudWatch Logs destination. -/
def marshalCloudWatchLogs
    (x : DataProtectionPolicyStatementOperationAuditFindingsDestinationCloudWatchLogs) : Json :=
  Json.obj (omitEmptyString "LogGroup" x.LogGroup)

/-- Modelled from the spec: the JSON tree of a Firehose destination. -/
def marshalFirehose
    (x : DataProtectionPolicyStatementOperationAuditFindingsDestinationFirehose) : Json :=
  Json.obj (omitEmptyString "DeliveryStream" x.DeliveryStream)

/-- Modelled from the spec: the JSON tree of an S3 destination. -/
def marshalS3 (x : DataProtectionPolicyStatementOperationAuditFindingsDestinationS3) : Json :=
  Json.obj (omitEmptyString "Bucket" x.Bucket)

/-- Modelled from the spec: the JSON tree of a findings destination. -/
def marshalFindingsDestination
    (x : DataProtectionPolicyStatementOperationAuditFindingsDestination) : Json :=
  Json.obj (omitNil "CloudWatchLogs" x.CloudWatchLogs marshalCloudWatchLogs ++
    omitNil "Firehose" x.Firehose marshalFirehose ++
    omitNil "S3" x.S3 marshalS3)

/-- Modelled from the spec: the JSON tree of an audit operation. -/
def marshalAudit (x : DataProtectionPolicyStatementOperationAudit) : Json :=
  Json.obj (omitNil "FindingsDestination" x.FindingsDestination marshalFindingsDestination)

/-- Modelled from the spec: the JSON tree of a mask configuration, an object
without fields. -/
def marshalMaskConfig (_ : DataProtectionPolicyStatementOperationDeidentifyMaskConfig) : Json :=
  Json.obj []

/-- Modelled from the spec: the JSON tree of a deidentify operation. -/
def marshalDeidentify (x : DataProtectionPolicyStatementOperationDeidentify) : Json :=
  Json.obj (omitNil "MaskConfig" x.MaskConfig marshalMaskConfig)

/-- Modelled from the spec: the JSON tree of an operation. -/
def marshalOperation (x : DataProtectionPolicyStatementOperation) : Json :=
  Json.obj (omitNil "Audit" x.Audit marshalAudit ++
    omitNil "Deidentify" x.Deidentify marshalDeidentify)

/-- Modelled from the spec: the JSON tree of a statement. -/
def marshalStatement (x : DataProtectionPolicyStatement) : Json :=
  Json.obj (omitEmptyString "Sid" x.Sid ++
    omitEmptySlice "DataIdentifier" x.DataIdentifiers Json.str ++
    omitNil "Operation" x.Operation marshalOperation)

/-- Modelled from the spec: the JSON tree of the document, fields in declared
order, empty ones omitted. -/
def marshalDocument (x : DataProtectionPolicyDocument) : Json :=
  Json.obj (omitNil "Configuration" x.Configuration marshalConfiguration ++
    omitEmptyString "Description" x.Description ++
    omitEmptyString "Name" x.Name ++
    omitEmptySlice "Statement" x.Statements marshalStatement ++
    omitEmptyString "Version" x.Version)

/-- The start of a line at the given depth: a newline, the prefix, and the
indent once per level. -/
def newline (pfx indent : String) (depth : Nat) : String :=
  "\n" ++ pfx ++ String.join (List.replicate depth indent)

mutual

/-- Modelled from the spec: the indented text of a JSON tree.  The JSON
literal of a string is the parameter `quote`. -/
def renderIndent (quote : String → String) (pfx indent : String) (depth : Nat) : Json → String
  | Json.str s => quote s
  | Json.arr [] => "[]"
  | Json.arr (x :: xs) =>
    "[" ++ newline pfx indent (depth + 1) ++
      renderElements quote pfx indent (depth + 1) (x :: xs) ++
      newline pfx indent depth ++ "]"
  | Json.obj [] => "\x7b\x7d"
  | Json.obj (f :: fs) =>
    "\x7b" ++ newline pfx indent (depth + 1) ++
      renderFields quote pfx indent (depth + 1) (f :: fs) ++
      newline pfx indent depth ++ "\x7d"

/-- Modelled from the spec: the elements of an array, one per line. -/
def renderElements (quote : String → String) (pfx indent : String) (depth : Nat) :
    List Json → String
  | [] => ""
  | [x] => renderIndent quote pfx indent depth x
  | x :: y :: rest =>
    renderIndent quote pfx indent depth x ++ "," ++ newline pfx indent depth ++
      renderElements quote pfx indent depth (y :: rest)

/-- Modelled from the spec: the fields of an object, one per line. -/
def renderFields (quote : String → String) (pfx indent : String) (depth : Nat) :
    List (String × Json) → String
  | [] => ""
  | [(k, v)] => quote k ++ ": " ++ renderIndent quote pfx indent depth v
  | (k, v) :: y :: rest =>
    quote k ++ ": " ++ renderIndent quote pfx indent depth v ++ "," ++
      newline pfx indent depth ++ renderFields quote pfx indent depth (y :: rest)

end

/-- Modelled from the spec: `tfjson.EncodeToStringIndent` (package `tfjson` is
not among the sources) on a policy document: the canonical text of the
document, keys in declared field order, empty fields omitted, indented with
the given prefix and indent; it does not fail on a document. -/
def EncodeToStringIndent (quote : String → String) (document : DataProtectionPolicyDocument)
    (pfx indent : String) : Except String String :=
  Except.ok (renderIndent quote pfx indent 0 (marshalDocument document))

/-- Modelled from the spec: `flex.ExpandStringValueSet` (package `flex` is not
among the sources) converts the set of strings into a sequence of the same
strings, in the fixed order of the set. -/
def ExpandStringValueSet (s : List String) : List String := s

/-- The collaborators as modelled from the spec; the JSON literal of a string
and the hash code stay parameters. -/
def specDeps (quote : String → String) (hash : String → Int) : Deps :=
  { EncodeToStringIndent := EncodeToStringIndent quote
    StringHashcode := hash
    ExpandStringValueSet := ExpandStringValueSet }

/-- A sample JSON literal: the string between double quotes. -/
def sampleQuote (s : String) : String := "\"" ++ s ++ "\""

/-- In the JSON tree of a statement, the keys `Sid`, `DataIdentifier`,
`CloudWatchLogs`, `Firehose` and `S3` appear exactly when the statement map
has a non-empty `sid`, a non-empty `data_identifiers` set, and the
corresponding findings-destination block present. -/
def StatementKeysAgree (m : TfMap) (j : Json) : Prop :=
  ((j.field? "Sid").isSome = true ↔ ∃ s, m.get "sid" = Value.str s ∧ s ≠ "") ∧
  ((j.field? "DataIdentifier").isSome = true ↔
    ∃ s, m.get "data_identifiers" = Value.set s ∧ s ≠ []) ∧
  ((j.path? ["Operation", "Audit", "FindingsDestination", "CloudWatchLogs"]).isSome =
    presentAt m ["operation", "audit", "findings_destination", names.AttrCloudWatchLogs]) ∧
  ((j.path? ["Operation", "Audit", "FindingsDestination", "Firehose"]).isSome =
    presentAt m ["operation", "audit", "findings_destination", "firehose"]) ∧
  ((j.path? ["Operation", "Audit", "FindingsDestination", "S3"]).isSome =
    presentAt m ["operation", "audit", "findings_destination", "s3"])

/-- The elements of a `custom_data_identifier` list that are maps. -/
def mappingElements (xs : List Value) : List TfMap :=
  xs.filterMap Value.asMap

/-- The identifier carries the `name` and the `regex` of the map. -/
def IdentifierOf (tm : TfMap) (id : DataProtectionPolicyCustomDataIdentifier) : Prop :=
  tm.get names.AttrName = Value.str id.Name ∧ tm.get "regex" = Value.str id.Regex

/-- A sample tree with a configuration block: two custom data identifiers
around an element that is not a map. -/
def sampleConfiguredTree : ResourceData :=
  { attrs :=
      [("description", Value.str "sample"),
       ("name", Value.str "example"),
       ("version", Value.str "2021-06-01"),
       ("configuration", Value.list [Value.map (some
          [("custom_data_identifier", Value.list
              [Value.map (some [("name", Value.str "a"), ("regex", Value.str "x+")]),
               Value.str "malformed",
               Value.map (some [("name", Value.str "b"), ("regex", Value.str "y+")])])])]),
       ("statement", Value.list
          [Value.map (some sampleAuditStatement), Value.map (some sampleDeidentifyStatement)])]
    id := "" }

/-- What the read leaves of the sample tree with a configuration block, under
the collaborators modelled from the spec. -/
def sampleStored : ResourceData :=
  match dataSourceDataProtectionPolicyDocumentRead (specDeps sampleQuote (fun s => s.length))
      sampleConfiguredTree with
  | Except.ok (_, d') => d'
  | Except.error _ => sampleConfiguredTree

/-- The attributes the read takes from the resource data (lines 194-196, 221
and 239). -/
def readAttributes : List String :=
  [names.AttrDescription, names.AttrName, names.AttrVersion, names.AttrConfiguration,
   "statement"]

/-- Two resource data hold the same value for every attribute the read takes;
their other attributes and their identifiers may differ. -/
def AgreeOnRead (d₁ d₂ : ResourceData) : Prop :=
  ∀ k ∈ readAttributes, d₁.Get k = d₂.Get k

/-- The sample tree with a configuration block, an earlier identifier, an
earlier json attribute and an attribute the read does not take. -/
def sampleEarlierTree : ResourceData :=
  { attrs := ("json", Value.str "stale") :: ("region", Value.str "eu-west-1") ::
      [("description", Value.str "sample"),
       ("name", Value.str "example"),
       ("version", Value.str "2021-06-01"),
       ("configuration", Value.list [Value.map (some
          [("custom_data_identifier", Value.list
              [Value.map (some [("name", Value.str "a"), ("regex", Value.str "x+")]),
               Value.str "malformed",
               Value.map (some [("name", Value.str "b"), ("regex", Value.str "y+")])])])]),
       ("statement", Value.list
          [Value.map (some sampleAuditStatement), Value.map (some sampleDeidentifyStatement)])]
    id := "previous" }

/-- What the read leaves of `sampleEarlierTree` under the sample
collaborators. -/
def sampleEarlierStored : ResourceData :=
  match dataSourceDataProtectionPolicyDocumentRead sampleDeps sampleEarlierTree with
  | Except.ok (_, d') => d'
  | Except.error _ => sampleEarlierTree

/-- What the read leaves of the sample tree with a configuration block, under
the sample collaborators. -/
def sampleFirstRun : ResourceData :=
  match dataSourceDataProtectionPolicyDocumentRead sampleDeps sampleConfiguredTree with
  | Except.ok (_, d') => d'
  | Except.error _ => sampleConfiguredTree

/-- The document the sample tree of an audit statement and a deidentify
statement expands to. -/
def sampleDocument : DataProtectionPolicyDocument :=
  { Configuration := none
    Description := ""
    Name := "example"
    Statements :=
      [{ Sid := "audit"
         DataIdentifiers := ["EmailAddress"]
         Operation := some (DataProtectionPolicyStatementOperation.mk
           (some (DataProtectionPolicyStatementOperationAudit.mk
             (some (DataProtectionPolicyStatementOperationAuditFindingsDestination.mk
               none none none))))
           none) },
       { Sid := ""
         DataIdentifiers := ["EmailAddress"]
         Operation := some (DataProtectionPolicyStatementOperation.mk
           none
           (some (DataProtectionPolicyStatementOperationDeidentify.mk
             (some DataProtectionPolicyStatementOperationDeidentifyMaskConfig.mk)))) }]
    Version := "2021-06-01" }

end Logs

/-! ## Service Catalog provisioning artifacts -/

namespace ServiceCatalog

open Logs (Value setEntry)

/-- A `time.Time`, as nanoseconds since the epoch. -/
structure Time where
  unixNano : Int
  deriving DecidableEq, Repr

/-- The SDK type `awstypes.ProvisioningArtifactDetail`: the pointer fields are
options, the two enumerations `Guidance` and `Type` (here `Type_`, as `Type`
is reserved) are strings. -/
structure ProvisioningArtifactDetail where
  Active : Option Bool
  CreatedTime : Option Time
  Description : Option String
  Guidance : String
  Id : Option String
  Name : Option String
  SourceRevision : Option String
  Type_ : String
  deriving DecidableEq, Repr

/-- The function `flattenProvisioningArtifactDetail` (lines 118-143).  The
rendering `time.Time.String` is the parameter `timeString`. -/
def flattenProvisioningArtifactDetail (timeString : Time → String)
    (apiObject : ProvisioningArtifactDetail) : List (String × Value) :=
  let tfMap : List (String × Value) := []
  let tfMap :=
    match apiObject.Active with
    | some b => setEntry "active" (Value.bool b) tfMap
    | none => tfMap
  let tfMap :=
    match apiObject.CreatedTime with
    | some t => setEntry names.AttrCreatedTime (Value.str (timeString t)) tfMap
    | none => tfMap
  let tfMap :=
    match apiObject.Description with
    | some s => setEntry names.AttrDescription (Value.str s) tfMap
    | none => tfMap
  let tfMap := setEntry "guidance" (Value.str apiObject.Guidance) tfMap
  let tfMap :=
    match apiObject.Id with
    | some s => setEntry names.AttrID (Value.str s) tfMap
    | none => tfMap
  let tfMap :=
    match apiObject.Name with
    | some s => setEntry names.AttrName (Value.str s) tfMap
    | none => tfMap
  let tfMap := setEntry names.AttrType (Value.str apiObject.Type_) tfMap
  tfMap

/-- The built-in `append(slice, x)` on a slice that may be nil (`none`). -/
def appendSlice {α : Type} (slice : Option (List α)) (x : α) : Option (List α) :=
  match slice with
  | none => some [x]
  | some xs => some (xs ++ [x])

/-- The function `flattenProvisioningArtifactDetails` (lines 104-116); the
result `none` is the nil slice. -/
def flattenProvisioningArtifactDetails (timeString : Time → String)
    (apiObjects : List ProvisioningArtifactDetail) : Option (List Value) :=
  if apiObjects.length = 0 then
    none
  else
    apiObjects.foldl
      (fun tfList apiObject =>
        appendSlice tfList (Value.map (some (flattenProvisioningArtifactDetail timeString apiObject))))
      none

/-- The two-value index `v, ok := m[k]` on the entries of a map. -/
def entry? (k : String) : List (String × Value) → Option Value
  | [] => none
  | (k', v) :: rest => if k' = k then some v else entry? k rest

/-- The keys of a map. -/
def keys (m : List (String × Value)) : List String :=
  m.map (fun e => e.1)

/-- A sample rendering of times: the decimal nanoseconds. -/
def sampleTimeString (t : Time) : String := toString t.unixNano

/-- A sample detail with every pointer nil and both enumerations empty. -/
def emptyDetail : ProvisioningArtifactDetail :=
  { Active := none, CreatedTime := none, Description := none, Guidance := "", Id := none,
    Name := none, SourceRevision := none, Type_ := "" }

end ServiceCatalog

/-! ## Sample statements without operations -/

namespace Logs

/-- A sample statement map whose operation block is absent: the empty list. -/
def sampleNoOperationStatement : List (String × Value) :=
  [("data_identifiers", Value.set ["EmailAddress"]),
   ("operation", Value.list [])]

/-- A sample statement map whose operation block is present and empty. -/
def sampleEmptyOperationStatement : List (String × Value) :=
  [("data_identifiers", Value.set ["EmailAddress"]),
   ("operation", Value.list [Value.nil])]

end Logs

/-! ## The provisioning artifacts read (lines 80-102) -/

namespace ServiceCatalog

open Logs (Value Panic Diagnostics Diagnostic assertString AppendErrorf lookup setEntry)

/-- The SDK type `servicecatalog.ListProvisioningArtifactsInput`, with the two
fields the read fills. -/
structure ListProvisioningArtifactsInput where
  AcceptLanguage : Option String
  ProductId : Option String
  deriving DecidableEq, Repr

/-- The SDK type `servicecatalog.ListProvisioningArtifactsOutput`, with the
field the read uses. -/
structure ListProvisioningArtifactsOutput where
  ProvisioningArtifactDetails : List ProvisioningArtifactDetail
  deriving DecidableEq, Repr

/-- The collaborators of the read, taken as parameters: the API call
`conn.ListProvisioningArtifacts` (an error is its message), the error `d.Set`
returns for a key and a value (`none` when it accepts them), and the rendering
`time.Time.String`. -/
structure Client where
  ListProvisioningArtifacts :
    ListProvisioningArtifactsInput → Except String ListProvisioningArtifactsOutput
  setError : String → Value → Option String
  timeString : Time → String

/-- A `*schema.ResourceData` as this read uses it: the configuration `d.Get`
reads, the value last handed to an accepted `d.Set` for each key, and the
identifier written by `d.SetId`.  What `d.Get` would read back for a written
list of resources goes through the schema and is not modelled. -/
structure ResourceData where
  config : List (String × Value)
  written : List (String × Value)
  id : String

/-- The call `d.Get(key)` on the configuration. -/
def ResourceData.Get (d : ResourceData) (key : String) : Value :=
  lookup key d.config

/-- An accepted call `d.Set(key, value)`: the value handed over is recorded
under the key. -/
def ResourceData.Set (d : ResourceData) (key : String) (v : Value) : ResourceData :=
  { d with written := setEntry key v d.written }

/-- The call `d.SetId(id)`. -/
def ResourceData.SetId (d : ResourceData) (id : String) : ResourceData :=
  { d with id := id }

/-- The value a `[]any` is as an `interface{}`: the nil slice and the empty
slice both have length zero. -/
def sliceValue (slice : Option (List Value)) : Value :=
  Value.list (slice.getD [])

/-- The message of line 93, with `%s` filled by the error. -/
def listingMessage (err : String) : String :=
  "listing Service Catalog Provisioning Artifacts: " ++ err

/-- The message of line 98, with `%s` filled by the error. -/
def settingMessage (err : String) : String :=
  "setting provisioning_artifact_details: " ++ err

/-- The function `dataSourceProvisioningArtifactsRead` (lines 80-102): the
diagnostics it returns and the resource data it leaves, or the panic of a
failed type assertion.  A `d.Set` that returns an error records nothing. -/
def dataSourceProvisioningArtifactsRead (c : Client) (d : ResourceData) :
    Except Panic (Diagnostics × ResourceData) :=
  match assertString (d.Get "product_id") with
  | Except.error p => Except.error p
  | Except.ok productID =>
    match assertString (d.Get "accept_language") with
    | Except.error p => Except.error p
    | Except.ok acceptLanguage =>
      match c.ListProvisioningArtifacts
          { AcceptLanguage := some acceptLanguage, ProductId := some productID } with
      | Except.error err => Except.ok (AppendErrorf [] (listingMessage err), d)
      | Except.ok output =>
        match c.setError "provisioning_artifact_details"
            (sliceValue (flattenProvisioningArtifactDetails c.timeString
              output.ProvisioningArtifactDetails)) with
        | some err => Except.ok (AppendErrorf [] (settingMessage err), d.SetId productID)
        | none =>
          Except.ok ([], (d.SetId productID).Set "provisioning_artifact_details"
            (sliceValue (flattenProvisioningArtifactDetails c.timeString
              output.ProvisioningArtifactDetails)))

/-- A sample resource data for the read. -/
def sampleProduct : ResourceData :=
  { config := [("accept_language", Value.str "en"), ("product_id", Value.str "prod-1")]
    written := []
    id := "" }

/-- A sample client: the call returns one detail, and `d.Set` accepts. -/
def sampleClient : Client :=
  { ListProvisioningArtifacts := fun _ => Except.ok { ProvisioningArtifactDetails := [emptyDetail] }
    setError := fun _ _ => none
    timeString := sampleTimeString }

/-- A sample client whose call fails. -/
def failingClient : Client :=
  { ListProvisioningArtifacts := fun _ => Except.error "AccessDeniedException"
    setError := fun _ _ => none
    timeString := sampleTimeString }

end ServiceCatalog

/-! ## The MediaLive multiplex destroy check (multiplex_test.go, lines 186-208) -/

namespace MediaLive

/-- A `terraform.InstanceState`, with the field the check reads. -/
structure InstanceState where
  ID : String
  deriving DecidableEq, Repr

/-- A `terraform.ResourceState`, with the fields the check reads (`Type` is
`Type_` here, as `Type` is reserved). -/
structure ResourceState where
  Type_ : String
  Primary : InstanceState
  deriving DecidableEq, Repr

/-- The collaborators of the check, taken as parameters.  An error is its
message, `none` is the nil error.  `FindInputSecurityGroupByID` gives the
error of the lookup the check calls, `NotFound` is `tfresource.NotFound`, and
`createError` is `create.Error` at the constants of line 202, from the
identifier and the error. -/
structure Lookups where
  FindInputSecurityGroupByID : String → Option String
  NotFound : Option String → Bool
  createError : String → String → String

/-- The loop of lines 190-204 over the resources of the root module, in the
order the map is ranged over: the error the check returns, `none` for nil. -/
def destroyLoop (env : Lookups) : List ResourceState → Option String
  | [] => none
  | rs :: rest =>
    if rs.Type_ ≠ "aws_medialive_multiplex" then
      destroyLoop env rest
    else
      if env.NotFound (env.FindInputSecurityGroupByID rs.Primary.ID) then
        destroyLoop env rest
      else
        match env.FindInputSecurityGroupByID rs.Primary.ID with
        | some err => some (env.createError rs.Primary.ID err)
        | none => destroyLoop env rest

/-- The check function `testAccCheckMultiplexDestroy` returns (lines 186-208),
on the resources of the root module of the state. -/
def testAccCheckMultiplexDestroy (env : Lookups) (resources : List ResourceState) :
    Option String :=
  destroyLoop env resources

/-- Sample collaborators: the lookup of every identifier succeeds. -/
def everythingExists : Lookups :=
  { FindInputSecurityGroupByID := fun _ => none
    NotFound := fun e => e == some "not found"
    createError := fun id err => "checking MediaLive Multiplex destroyed (" ++ id ++ "): " ++ err }

/-- A sample state: one multiplex. -/
def oneMultiplex : List ResourceState :=
  [{ Type_ := "aws_medialive_multiplex", Primary := { ID := "1234567" } }]

end MediaLive

/-! ## Theorems -/

namespace Logs

/-! ### No panic on a typed tree -/

theorem blockString_ok {v : Value} {key : String}
    (h : blockTyped v (fun b => hasString b key) = true) :
    ∀ m, unwrap v = (m, true) → ∃ s, assertString (m.get key) = Except.ok s := by
  intro m hm
  simp only [blockTyped, hm, hasString] at h
  cases hs : (m.get key).asString with
  | none => simp [hs] at h
  | some s => exact ⟨s, by simp [assertString, hs]⟩

theorem expandCloudWatchLogs_ok {v : Value}
    (h : blockTyped v (fun b => hasString b "log_group") = true) :
    ∃ r, expandCloudWatchLogs v = Except.ok r := by
  rcases hu : unwrap v with ⟨m, b⟩
  cases b
  · exact ⟨none, by simp [expandCloudWatchLogs, hu]⟩
  · obtain ⟨s, hs⟩ := blockString_ok h m hu
    exact ⟨some ⟨s⟩, by simp [expandCloudWatchLogs, hu, hs]⟩

theorem expandFirehose_ok {v : Value}
    (h : blockTyped v (fun b => hasString b "delivery_stream") = true) :
    ∃ r, expandFirehose v = Except.ok r := by
  rcases hu : unwrap v with ⟨m, b⟩
  cases b
  · exact ⟨none, by simp [expandFirehose, hu]⟩
  · obtain ⟨s, hs⟩ := blockString_ok h m hu
    exact ⟨some ⟨s⟩, by simp [expandFirehose, hu, hs]⟩

theorem expandS3_ok {v : Value}
    (h : blockTyped v (fun b => hasString b names.AttrBucket) = true) :
    ∃ r, expandS3 v = Except.ok r := by
  rcases hu : unwrap v with ⟨m, b⟩
  cases b
  · exact ⟨none, by simp [expandS3, hu]⟩
  · obtain ⟨s, hs⟩ := blockString_ok h m hu
    exact ⟨some ⟨s⟩, by simp [expandS3, hu, hs]⟩

theorem expandFindingsDestination_ok {v : Value}
    (h : blockTyped v findingsDestinationTyped = true) :
    ∃ r, expandFindingsDestination v = Except.ok r := by
  rcases hu : unwrap v with ⟨m, b⟩
  cases b
  · exact ⟨none, by simp [expandFindingsDestination, hu]⟩
  · simp only [blockTyped, hu, findingsDestinationTyped, Bool.and_eq_true] at h
    obtain ⟨c, hc⟩ := expandCloudWatchLogs_ok h.1.1
    obtain ⟨f, hf⟩ := expandFirehose_ok h.1.2
    obtain ⟨t, ht⟩ := expandS3_ok h.2
    exact ⟨some ⟨c, f, t⟩, by simp [expandFindingsDestination, hu, hc, hf, ht]⟩

theorem expandAudit_ok {v : Value} (h : blockTyped v auditTyped = true) :
    ∃ r, expandAudit v = Except.ok r := by
  rcases hu : unwrap v with ⟨m, b⟩
  cases b
  · exact ⟨none, by simp [expandAudit, hu]⟩
  · simp only [blockTyped, hu, auditTyped] at h
    obtain ⟨f, hf⟩ := expandFindingsDestination_ok h
    exact ⟨some ⟨f⟩, by simp [expandAudit, hu, hf]⟩

theorem expandOperation_ok {v : Value} (h : blockTyped v operationTyped = true) :
    ∃ r, expandOperation v = Except.ok r := by
  rcases hu : unwrap v with ⟨m, b⟩
  cases b
  · exact ⟨none, by simp [expandOperation, hu]⟩
  · simp only [blockTyped, hu, operationTyped] at h
    obtain ⟨a, ha⟩ := expandAudit_ok h
    exact ⟨some ⟨a, expandDeidentify (m.get "deidentify")⟩, by simp [expandOperation, hu, ha]⟩

theorem expandStatement_ok (deps : Deps) {m : TfMap} (h : statementTyped m = true) :
    ∃ st, expandStatement deps m = Except.ok st := by
  obtain ⟨o, ho⟩ := expandOperation_ok (v := m.get "operation") h
  simp [expandStatement, ho]

theorem statementLoop_ok (deps : Deps) (xs : List Value) :
    ∀ acc, xs.all statementElemTyped = true →
      ∃ sts, statementLoop deps acc xs = Except.ok sts := by
  induction xs with
  | nil => intro acc _; exact ⟨acc, rfl⟩
  | cons x rest ih =>
    intro acc h
    simp only [List.all_cons, Bool.and_eq_true] at h
    cases hx : x.asMap with
    | none => simpa [statementLoop, hx] using ih acc h.2
    | some om =>
      cases om with
      | none => simpa [statementLoop, hx] using ih acc h.2
      | some m =>
        have ht : statementTyped (some m) = true := by simpa [statementElemTyped, hx] using h.1
        obtain ⟨st, hst⟩ := expandStatement_ok deps ht
        simpa [statementLoop, hx, hst] using ih (acc ++ [st]) h.2

theorem customDataIdentifierLoop_ok (xs : List Value) :
    ∀ acc, xs.all customDataIdentifierTyped = true →
      ∃ ids, customDataIdentifierLoop acc xs = Except.ok ids := by
  induction xs with
  | nil => intro acc _; exact ⟨acc, rfl⟩
  | cons x rest ih =>
    intro acc h
    simp only [List.all_cons, Bool.and_eq_true] at h
    cases hx : x.asMap with
    | none => simpa [customDataIdentifierLoop, customDataIdentifierStep, hx] using ih acc h.2
    | some m =>
      have ht := h.1
      simp only [customDataIdentifierTyped, hx, hasString, Bool.and_eq_true] at ht
      cases hn : (m.get names.AttrName).asString with
      | none => simp [hn] at ht
      | some n =>
        cases hr : (m.get "regex").asString with
        | none => simp [hr] at ht
        | some r =>
          simpa [customDataIdentifierLoop, customDataIdentifierStep, hx, assertString, hn, hr]
            using ih (acc ++ [⟨n, r⟩]) h.2

theorem expandConfiguration_ok {v : Value} (h : blockTyped v configurationTyped = true) :
    ∃ r, expandConfiguration v = Except.ok r := by
  rcases hu : unwrap v with ⟨m, b⟩
  cases b
  · exact ⟨none, by simp [expandConfiguration, hu]⟩
  · simp only [blockTyped, hu, configurationTyped] at h
    cases hl : (m.get "custom_data_identifier").asList with
    | none => simp [expandConfiguration, hu, hl]
    | some xs =>
      simp only [hl] at h
      obtain ⟨ids, hids⟩ := customDataIdentifierLoop_ok xs [] h
      by_cases hlen : xs.length > 0
      · simp [expandConfiguration, hu, hl, hlen, hids]
      · simp [expandConfiguration, hu, hl, hlen]

/-- On a tree that carries the leaf types of the schema the expansion raises no
panic. -/
theorem expandDocument_ok (deps : Deps) (d : ResourceData) (h : schemaTyped d = true) :
    ∃ doc, expandDocument deps d = Except.ok doc := by
  simp only [schemaTyped, Bool.and_eq_true] at h
  obtain ⟨⟨⟨⟨hd, hn⟩, hv⟩, hc⟩, hs⟩ := h
  cases hd' : (d.Get names.AttrDescription).asString with
  | none => simp [hd'] at hd
  | some ds =>
    cases hn' : (d.Get names.AttrName).asString with
    | none => simp [hn'] at hn
    | some ns =>
      cases hv' : (d.Get names.AttrVersion).asString with
      | none => simp [hv'] at hv
      | some vs =>
        obtain ⟨c, hc'⟩ := expandConfiguration_ok hc
        cases hl : (d.Get "statement").asList with
        | none => simp [hl] at hs
        | some xs =>
          simp only [hl] at hs
          obtain ⟨sts, hsts⟩ := statementLoop_ok deps xs [] hs
          simp [expandDocument, assertString, assertList, hd', hn', hv', hc', hl, hsts]

/-! ### What a successful expansion returns -/

theorem expandDocument_inv {deps : Deps} {d : ResourceData} {doc : DataProtectionPolicyDocument}
    (h : expandDocument deps d = Except.ok doc) :
    assertString (d.Get names.AttrDescription) = Except.ok doc.Description ∧
    assertString (d.Get names.AttrName) = Except.ok doc.Name ∧
    assertString (d.Get names.AttrVersion) = Except.ok doc.Version ∧
    expandConfiguration (d.Get names.AttrConfiguration) = Except.ok doc.Configuration ∧
    ∃ xs, assertList (d.Get "statement") = Except.ok xs ∧
      statementLoop deps [] xs = Except.ok doc.Statements := by
  unfold expandDocument at h
  cases h1 : assertString (d.Get names.AttrDescription) with
  | error p => simp [h1] at h
  | ok ds =>
    cases h2 : assertString (d.Get names.AttrName) with
    | error p => simp [h1, h2] at h
    | ok ns =>
      cases h3 : assertString (d.Get names.AttrVersion) with
      | error p => simp [h1, h2, h3] at h
      | ok vs =>
        cases h4 : expandConfiguration (d.Get names.AttrConfiguration) with
        | error p => simp [h1, h2, h3, h4] at h
        | ok c =>
          cases h5 : assertList (d.Get "statement") with
          | error p => simp [h1, h2, h3, h4, h5] at h
          | ok xs =>
            cases h6 : statementLoop deps [] xs with
            | error p => simp [h1, h2, h3, h4, h5, h6] at h
            | ok sts =>
              simp only [h1, h2, h3, h4, h5, h6, Except.ok.injEq] at h
              subst h
              exact ⟨rfl, rfl, rfl, rfl, xs, rfl, h6⟩

theorem expandAudit_isSome {v : Value} {r : Option DataProtectionPolicyStatementOperationAudit}
    (h : expandAudit v = Except.ok r) : r.isSome = present v := by
  unfold expandAudit at h
  rcases hu : unwrap v with ⟨m, b⟩
  cases b
  · simp only [hu, Except.ok.injEq] at h
    subst h
    simp [present, hu]
  · simp only [hu] at h
    cases hf : expandFindingsDestination (m.get "findings_destination") with
    | error p => simp [hf] at h
    | ok f =>
      simp only [hf, Except.ok.injEq] at h
      subst h
      simp [present, hu]

theorem expandDeidentify_isSome (v : Value) : (expandDeidentify v).isSome = present v := by
  unfold expandDeidentify present
  rcases hu : unwrap v with ⟨m, b⟩
  cases b <;> simp

theorem expandOperation_inv {v : Value} {m : TfMap}
    {r : Option DataProtectionPolicyStatementOperation}
    (hu : unwrap v = (m, true)) (h : expandOperation v = Except.ok r) :
    ∃ a, expandAudit (m.get "audit") = Except.ok a ∧
      r = some { Audit := a, Deidentify := expandDeidentify (m.get "deidentify") } := by
  unfold expandOperation at h
  simp only [hu] at h
  cases ha : expandAudit (m.get "audit") with
  | error p => simp [ha] at h
  | ok a =>
    simp only [ha, Except.ok.injEq] at h
    exact ⟨a, rfl, h.symm⟩

theorem expandStatement_inv {deps : Deps} {m : TfMap} {st : DataProtectionPolicyStatement}
    (h : expandStatement deps m = Except.ok st) :
    expandOperation (m.get "operation") = Except.ok st.Operation ∧
    st.Sid = expandSid (m.get "sid") ∧
    st.DataIdentifiers = expandDataIdentifiers deps (m.get "data_identifiers") := by
  unfold expandStatement at h
  cases ho : expandOperation (m.get "operation") with
  | error p => simp [ho] at h
  | ok o =>
    simp only [ho, Except.ok.injEq] at h
    subst h
    exact ⟨rfl, rfl, rfl⟩

/-- The two statements of a two-statement tree, each with its operation block
present. -/
theorem two_statements {deps : Deps} {d : ResourceData} {doc : DataProtectionPolicyDocument}
    {m0 m1 : List (String × Value)} {o0 o1 : TfMap}
    (h : expandDocument deps d = Except.ok doc)
    (hst : d.Get "statement" = Value.list [Value.map (some m0), Value.map (some m1)])
    (h0 : unwrap (lookup "operation" m0) = (o0, true))
    (h1 : unwrap (lookup "operation" m1) = (o1, true)) :
    ∃ st0 st1 a0 a1, doc.Statements = [st0, st1] ∧
      expandStatement deps (some m0) = Except.ok st0 ∧
      expandStatement deps (some m1) = Except.ok st1 ∧
      st0.Operation = some { Audit := a0, Deidentify := expandDeidentify (o0.get "deidentify") } ∧
      st1.Operation = some { Audit := a1, Deidentify := expandDeidentify (o1.get "deidentify") } ∧
      a0.isSome = present (o0.get "audit") ∧ a1.isSome = present (o1.get "audit") := by
  obtain ⟨-, -, -, -, xs, hxs, hloop⟩ := expandDocument_inv h
  simp only [hst, assertList, Value.asList, Except.ok.injEq] at hxs
  subst hxs
  simp only [statementLoop, Value.asMap] at hloop
  cases e0 : expandStatement deps (some m0) with
  | error p => simp [e0] at hloop
  | ok st0 =>
    cases e1 : expandStatement deps (some m1) with
    | error p => simp [e0, e1] at hloop
    | ok st1 =>
      simp only [e0, e1, List.nil_append, List.cons_append, Except.ok.injEq] at hloop
      obtain ⟨a0, ha0, hop0⟩ := expandOperation_inv (v := lookup "operation" m0) h0
        (expandStatement_inv e0).1
      obtain ⟨a1, ha1, hop1⟩ := expandOperation_inv (v := lookup "operation" m1) h1
        (expandStatement_inv e1).1
      exact ⟨st0, st1, a0, a1, hloop.symm, rfl, rfl, hop0, hop1,
        expandAudit_isSome ha0, expandAudit_isSome ha1⟩

/-- Lines 303-322 on a document of two statements whose operations are set. -/
theorem validateAndStore_two (deps : Deps) (d : ResourceData)
    (doc : DataProtectionPolicyDocument) (st0 st1 : DataProtectionPolicyStatement)
    (op0 op1 : DataProtectionPolicyStatementOperation)
    (hs : doc.Statements = [st0, st1]) (h0 : st0.Operation = some op0)
    (h1 : st1.Operation = some op1) :
    validateAndStore deps d doc [] =
      if op0.Audit.isNone || op0.Deidentify.isSome then
        Except.ok ([errorDiagnostic firstStatementMessage], d)
      else if op1.Audit.isSome || op1.Deidentify.isNone then
        Except.ok ([errorDiagnostic secondStatementMessage], d)
      else
        match deps.EncodeToStringIndent doc "" "  " with
        | Except.error err => Except.ok ([errorDiagnostic err], d)
        | Except.ok jsonString =>
          Except.ok ([], (d.Set names.AttrJSON (Value.str jsonString)).SetId
            (Itoa (deps.StringHashcode jsonString))) := by
  simp only [validateAndStore, index, hs, List.get?, deref, h0, h1, AppendErrorf, AppendFromErr,
    List.nil_append, errorDiagnostic]

theorem messages_differ : firstStatementMessage ≠ secondStatementMessage := by decide

/-! ### Presence of blocks -/

theorem presentAt_nil (m : TfMap) : presentAt m [] = true := rfl

theorem presentAt_cons (m : TfMap) (k : String) (ks : List String) :
    presentAt m (k :: ks) = presentFrom (m.get k) ks := by
  unfold presentFrom presentAt
  simp only [blockAt]
  rcases unwrap (m.get k) with ⟨m', b⟩
  cases b <;> rfl

theorem presentFrom_of_absent {v : Value} {m : TfMap} (hu : unwrap v = (m, false))
    (ks : List String) : presentFrom v ks = false := by
  simp [presentFrom, hu]

theorem presentFrom_of_present {v : Value} {m : TfMap} (hu : unwrap v = (m, true))
    (ks : List String) : presentFrom v ks = presentAt m ks := by
  simp [presentFrom, hu]

theorem expandCloudWatchLogs_presence {v : Value}
    {r : Option DataProtectionPolicyStatementOperationAuditFindingsDestinationCloudWatchLogs}
    (h : expandCloudWatchLogs v = Except.ok r) : r.isSome = presentFrom v [] := by
  unfold expandCloudWatchLogs at h
  rcases hu : unwrap v with ⟨m, b⟩
  cases b
  · simp only [hu, Except.ok.injEq] at h
    subst h
    simp [presentFrom, hu]
  · simp only [hu] at h
    cases hs : assertString (m.get "log_group") with
    | error p => simp [hs] at h
    | ok x =>
      simp only [hs, Except.ok.injEq] at h
      subst h
      simp [presentFrom, hu, presentAt_nil]

theorem expandFirehose_presence {v : Value}
    {r : Option DataProtectionPolicyStatementOperationAuditFindingsDestinationFirehose}
    (h : expandFirehose v = Except.ok r) : r.isSome = presentFrom v [] := by
  unfold expandFirehose at h
  rcases hu : unwrap v with ⟨m, b⟩
  cases b
  · simp only [hu, Except.ok.injEq] at h
    subst h
    simp [presentFrom, hu]
  · simp only [hu] at h
    cases hs : assertString (m.get "delivery_stream") with
    | error p => simp [hs] at h
    | ok x =>
      simp only [hs, Except.ok.injEq] at h
      subst h
      simp [presentFrom, hu, presentAt_nil]

theorem expandS3_presence {v : Value}
    {r : Option DataProtectionPolicyStatementOperationAuditFindingsDestinationS3}
    (h : expandS3 v = Except.ok r) : r.isSome = presentFrom v [] := by
  unfold expandS3 at h
  rcases hu : unwrap v with ⟨m, b⟩
  cases b
  · simp only [hu, Except.ok.injEq] at h
    subst h
    simp [presentFrom, hu]
  · simp only [hu] at h
    cases hs : assertString (m.get names.AttrBucket) with
    | error p => simp [hs] at h
    | ok x =>
      simp only [hs, Except.ok.injEq] at h
      subst h
      simp [presentFrom, hu, presentAt_nil]

theorem expandFindingsDestination_presence {v : Value}
    {r : Option DataProtectionPolicyStatementOperationAuditFindingsDestination}
    (h : expandFindingsDestination v = Except.ok r) :
    r.isSome = presentFrom v [] ∧
    (r.bind (fun f => f.CloudWatchLogs)).isSome = presentFrom v [names.AttrCloudWatchLogs] ∧
    (r.bind (fun f => f.Firehose)).isSome = presentFrom v ["firehose"] ∧
    (r.bind (fun f => f.S3)).isSome = presentFrom v ["s3"] := by
  unfold expandFindingsDestination at h
  rcases hu : unwrap v with ⟨m, b⟩
  cases b
  · simp only [hu, Except.ok.injEq] at h
    subst h
    simp [presentFrom_of_absent hu]
  · simp only [hu] at h
    cases hc : expandCloudWatchLogs (m.get names.AttrCloudWatchLogs) with
    | error p => simp [hc] at h
    | ok c =>
      cases hf : expandFirehose (m.get "firehose") with
      | error p => simp [hc, hf] at h
      | ok f =>
        cases ht : expandS3 (m.get "s3") with
        | error p => simp [hc, hf, ht] at h
        | ok t =>
          simp only [hc, hf, ht, Except.ok.injEq] at h
          subst h
          simp only [presentFrom_of_present hu, presentAt_cons, presentAt_nil, Option.isSome_some,
            Option.some_bind, expandCloudWatchLogs_presence hc, expandFirehose_presence hf,
            expandS3_presence ht, and_self]

theorem expandAudit_presence {v : Value}
    {r : Option DataProtectionPolicyStatementOperationAudit}
    (h : expandAudit v = Except.ok r) :
    r.isSome = presentFrom v [] ∧
    (r.bind (fun a => a.FindingsDestination)).isSome = presentFrom v ["findings_destination"] ∧
    ((r.bind (fun a => a.FindingsDestination)).bind (fun f => f.CloudWatchLogs)).isSome =
      presentFrom v ["findings_destination", names.AttrCloudWatchLogs] ∧
    ((r.bind (fun a => a.FindingsDestination)).bind (fun f => f.Firehose)).isSome =
      presentFrom v ["findings_destination", "firehose"] ∧
    ((r.bind (fun a => a.FindingsDestination)).bind (fun f => f.S3)).isSome =
      presentFrom v ["findings_destination", "s3"] := by
  unfold expandAudit at h
  rcases hu : unwrap v with ⟨m, b⟩
  cases b
  · simp only [hu, Except.ok.injEq] at h
    subst h
    simp [presentFrom_of_absent hu]
  · simp only [hu] at h
    cases hf : expandFindingsDestination (m.get "findings_destination") with
    | error p => simp [hf] at h
    | ok f =>
      simp only [hf, Except.ok.injEq] at h
      subst h
      obtain ⟨h1, h2, h3, h4⟩ := expandFindingsDestination_presence hf
      simp only [presentFrom_of_present hu, presentAt_cons, presentAt_nil, Option.isSome_some,
        Option.some_bind, h1, h2, h3, h4, and_self]

theorem expandDeidentify_presence (v : Value) :
    (expandDeidentify v).isSome = presentFrom v [] ∧
    ((expandDeidentify v).bind (fun x => x.MaskConfig)).isSome = presentFrom v ["mask_config"] := by
  unfold expandDeidentify
  rcases hu : unwrap v with ⟨m, b⟩
  cases b
  · simp [presentFrom_of_absent hu]
  · simp only [presentFrom_of_present hu, presentAt_cons, presentAt_nil, Option.isSome_some,
      Option.some_bind, true_and]
    unfold expandMaskConfig presentFrom
    rcases unwrap (m.get "mask_config") with ⟨m', b'⟩
    cases b' <;> simp [presentAt_nil]

theorem expandStatement_presence {deps : Deps} {m : TfMap} {st : DataProtectionPolicyStatement}
    (h : expandStatement deps m = Except.ok st) : PresenceAgrees m st := by
  have hop := (expandStatement_inv h).1
  simp only [PresenceAgrees, maskConfigOf, deidentifyOf, s3Of, firehoseOf, cloudWatchLogsOf,
    findingsDestinationOf, auditOf, presentAt_cons]
  unfold expandOperation at hop
  rcases hu : unwrap (m.get "operation") with ⟨o, b⟩
  cases b
  · simp only [hu, Except.ok.injEq] at hop
    rw [← hop]
    simp [presentFrom_of_absent hu]
  · simp only [hu] at hop
    cases ha : expandAudit (o.get "audit") with
    | error p => simp [ha] at hop
    | ok a =>
      simp only [ha, Except.ok.injEq] at hop
      rw [← hop]
      obtain ⟨h1, h2, h3, h4, h5⟩ := expandAudit_presence ha
      obtain ⟨h6, h7⟩ := expandDeidentify_presence (o.get "deidentify")
      simp only [presentFrom_of_present hu, presentAt_cons, presentAt_nil, Option.isSome_some,
        Option.some_bind, h1, h2, h3, h4, h5, h6, h7, and_self]

theorem statementLoop_forall₂ (deps : Deps) (xs : List Value) :
    ∀ acc sts, statementLoop deps acc xs = Except.ok sts →
      ∃ new, sts = acc ++ new ∧
        List.Forall₂ (fun m st => expandStatement deps m = Except.ok st) (statementMaps xs) new := by
  induction xs with
  | nil =>
    intro acc sts h
    simp only [statementLoop, Except.ok.injEq] at h
    exact ⟨[], by simp [h], by simp [statementMaps]⟩
  | cons x rest ih =>
    intro acc sts h
    cases hx : x.asMap with
    | none =>
      simp only [statementLoop, hx] at h
      obtain ⟨new, h1, h2⟩ := ih acc sts h
      exact ⟨new, h1, by simpa [statementMaps, hx] using h2⟩
    | some om =>
      cases om with
      | none =>
        simp only [statementLoop, hx] at h
        obtain ⟨new, h1, h2⟩ := ih acc sts h
        exact ⟨new, h1, by simpa [statementMaps, hx] using h2⟩
      | some m =>
        simp only [statementLoop, hx] at h
        cases he : expandStatement deps (some m) with
        | error p => simp [he] at h
        | ok st =>
          simp only [he] at h
          obtain ⟨new, h1, h2⟩ := ih (acc ++ [st]) sts h
          refine ⟨st :: new, by simp [h1], ?_⟩
          simp only [statementMaps, List.filterMap_cons, hx]
          exact List.Forall₂.cons he h2

theorem expandConfiguration_isSome {v : Value}
    {r : Option DataProtectionPolicyStatementConfiguration}
    (h : expandConfiguration v = Except.ok r) : r.isSome = present v := by
  unfold expandConfiguration at h
  unfold present
  rcases hu : unwrap v with ⟨m, b⟩
  cases b
  · simp only [hu, Except.ok.injEq] at h
    subst h
    rfl
  · simp only [hu] at h
    split at h
    · split at h
      · split at h
        · simp at h
        · simp only [Except.ok.injEq] at h
          subst h
          rfl
      · simp only [Except.ok.injEq] at h
        subst h
        rfl
    · simp only [Except.ok.injEq] at h
      subst h
      rfl

/-! ### The custom data identifiers -/

theorem customDataIdentifierLoop_forall₂ (xs : List Value) :
    ∀ acc ids, customDataIdentifierLoop acc xs = Except.ok ids →
      ∃ new, ids = acc ++ new ∧ List.Forall₂ IdentifierOf (mappingElements xs) new := by
  induction xs with
  | nil =>
    intro acc ids h
    simp only [customDataIdentifierLoop, Except.ok.injEq] at h
    exact ⟨[], by simp [h], by simp [mappingElements]⟩
  | cons x rest ih =>
    intro acc ids h
    simp only [customDataIdentifierLoop, customDataIdentifierStep] at h
    cases hx : x.asMap with
    | none =>
      simp only [hx] at h
      obtain ⟨new, h1, h2⟩ := ih acc ids h
      exact ⟨new, h1, by simpa [mappingElements, hx] using h2⟩
    | some tm =>
      simp only [hx, assertString] at h
      cases hn : (tm.get names.AttrName).asString with
      | none => simp [hn] at h
      | some n =>
        cases hr : (tm.get "regex").asString with
        | none => simp [hn, hr] at h
        | some r =>
          simp only [hn, hr] at h
          obtain ⟨new, h1, h2⟩ := ih _ ids h
          refine ⟨⟨n, r⟩ :: new, by simp [h1], ?_⟩
          simp only [mappingElements, List.filterMap_cons, hx]
          refine List.Forall₂.cons ⟨?_, ?_⟩ h2
          · cases hv : tm.get names.AttrName <;> simp_all [Value.asString]
          · cases hv : tm.get "regex" <;> simp_all [Value.asString]

theorem customDataIdentifierLoop_filter (xs : List Value) :
    ∀ acc, customDataIdentifierLoop acc xs =
      customDataIdentifierLoop acc (xs.filter (fun x => x.asMap.isSome)) := by
  induction xs with
  | nil => intro acc; rfl
  | cons x rest ih =>
    intro acc
    cases hx : x.asMap with
    | none =>
      simp only [List.filter_cons, hx, Option.isSome_none, Bool.false_eq_true, if_false]
      simp only [customDataIdentifierLoop, customDataIdentifierStep, hx]
      exact ih acc
    | some tm =>
      simp only [List.filter_cons, hx, Option.isSome_some, if_true]
      simp only [customDataIdentifierLoop]
      cases hs : customDataIdentifierStep acc x with
      | error p => rfl
      | ok acc' => exact ih acc'

theorem mappingElements_length (xs : List Value) :
    (mappingElements xs).length = (xs.filter (fun x => x.asMap.isSome)).length := by
  induction xs with
  | nil => rfl
  | cons x rest ih =>
    cases hx : x.asMap <;> simp_all [mappingElements, List.filterMap_cons, List.filter_cons]

theorem all_typed_of_mappingElements {xs : List Value}
    (h : ∀ tm ∈ mappingElements xs,
      hasString tm names.AttrName = true ∧ hasString tm "regex" = true) :
    xs.all customDataIdentifierTyped = true := by
  rw [List.all_eq_true]
  intro x hx
  unfold customDataIdentifierTyped
  cases hm : x.asMap with
  | none => rfl
  | some tm =>
    have hmem : tm ∈ mappingElements xs := by
      simp only [mappingElements, List.mem_filterMap]
      exact ⟨x, hx, hm⟩
    simp [h tm hmem]

/-- The four ways lines 303-322 return. -/
theorem validateAndStore_outcome {deps : Deps} {d d' : ResourceData}
    {doc : DataProtectionPolicyDocument} {diags : Diagnostics}
    (h : validateAndStore deps d doc [] = Except.ok (diags, d')) :
    (diags = [errorDiagnostic firstStatementMessage] ∧ d' = d) ∨
    (diags = [errorDiagnostic secondStatementMessage] ∧ d' = d) ∨
    (∃ err, deps.EncodeToStringIndent doc "" "  " = Except.error err ∧
      diags = [errorDiagnostic err] ∧ d' = d) ∨
    (∃ jsonString, deps.EncodeToStringIndent doc "" "  " = Except.ok jsonString ∧
      diags = [] ∧
      d' = (d.Set names.AttrJSON (Value.str jsonString)).SetId
        (Itoa (deps.StringHashcode jsonString))) := by
  unfold validateAndStore at h
  cases hi0 : index doc.Statements 0 with
  | error p => simp [hi0] at h
  | ok s0 =>
    simp only [hi0] at h
    cases hd0 : deref s0.Operation with
    | error p => simp [hd0] at h
    | ok op0 =>
      simp only [hd0] at h
      split at h
      · simp only [Except.ok.injEq, Prod.mk.injEq] at h
        exact Or.inl ⟨h.1.symm, h.2.symm⟩
      · cases hi1 : index doc.Statements 1 with
        | error p => simp [hi1] at h
        | ok s1 =>
          simp only [hi1] at h
          cases hd1 : deref s1.Operation with
          | error p => simp [hd1] at h
          | ok op1 =>
            simp only [hd1] at h
            split at h
            · simp only [Except.ok.injEq, Prod.mk.injEq] at h
              exact Or.inr (Or.inl ⟨h.1.symm, h.2.symm⟩)
            · cases he : deps.EncodeToStringIndent doc "" "  " with
              | error e =>
                simp only [he, Except.ok.injEq, Prod.mk.injEq] at h
                exact Or.inr (Or.inr (Or.inl ⟨e, rfl, h.1.symm, h.2.symm⟩))
              | ok j =>
                simp only [he, Except.ok.injEq, Prod.mk.injEq] at h
                exact Or.inr (Or.inr (Or.inr ⟨j, rfl, h.1.symm, h.2.symm⟩))

/-- A returning read expanded the document and then ran lines 303-322. -/
theorem read_inv {deps : Deps} {d d' : ResourceData} {diags : Diagnostics}
    (h : dataSourceDataProtectionPolicyDocumentRead deps d = Except.ok (diags, d')) :
    ∃ doc, expandDocument deps d = Except.ok doc ∧
      validateAndStore deps d doc [] = Except.ok (diags, d') := by
  unfold dataSourceDataProtectionPolicyDocumentRead at h
  cases hdoc : expandDocument deps d with
  | error p => simp [hdoc] at h
  | ok doc =>
    simp only [hdoc] at h
    exact ⟨doc, rfl, h⟩

theorem lookup_setEntry_self (k : String) (v : Value) (es : List (String × Value)) :
    lookup k (setEntry k v es) = v := by
  induction es with
  | nil => simp [setEntry, lookup]
  | cons e rest ih =>
    obtain ⟨k', v'⟩ := e
    by_cases hk : k' = k
    · simp [setEntry, lookup, hk]
    · simp [setEntry, lookup, hk, ih]

/-- A run without a diagnostic wrote the serialized document and the rendering
of its hash. -/
theorem read_success {deps : Deps} {d d' : ResourceData}
    (h : dataSourceDataProtectionPolicyDocumentRead deps d = Except.ok ([], d')) :
    ∃ doc jsonString, expandDocument deps d = Except.ok doc ∧
      deps.EncodeToStringIndent doc "" "  " = Except.ok jsonString ∧
      d' = (d.Set names.AttrJSON (Value.str jsonString)).SetId
        (Itoa (deps.StringHashcode jsonString)) ∧
      d'.Get names.AttrJSON = Value.str jsonString ∧
      d'.id = Itoa (deps.StringHashcode jsonString) := by
  obtain ⟨doc, hdoc, hv⟩ := read_inv h
  rcases validateAndStore_outcome hv with ⟨hd, -⟩ | ⟨hd, -⟩ | ⟨_, -, hd, -⟩ | ⟨j, hj, -, hd'⟩
  · simp at hd
  · simp at hd
  · simp at hd
  · refine ⟨doc, j, hdoc, hj, hd', ?_, ?_⟩
    · rw [hd']
      simp [ResourceData.Get, ResourceData.Set, ResourceData.SetId, lookup_setEntry_self]
    · rw [hd']
      rfl

theorem expandDocument_congr (deps : Deps) {d₁ d₂ : ResourceData} (h : d₁.attrs = d₂.attrs) :
    expandDocument deps d₁ = expandDocument deps d₂ := by
  simp only [expandDocument, ResourceData.Get, h]

/-! ### The keys of the serialized document -/

theorem marshalStatement_sid (st : DataProtectionPolicyStatement) :
    ((marshalStatement st).field? "Sid").isSome = true ↔ st.Sid ≠ "" := by
  by_cases h : st.Sid = "" <;>
    by_cases h2 : st.DataIdentifiers.length = 0 <;>
      cases h3 : st.Operation <;>
        simp [marshalStatement, Json.field?, fieldOf, omitEmptyString, omitEmptySlice, omitNil,
          h, h2, h3]

theorem marshalStatement_dataIdentifier (st : DataProtectionPolicyStatement) :
    ((marshalStatement st).field? "DataIdentifier").isSome = true ↔ st.DataIdentifiers ≠ [] := by
  have hlen : st.DataIdentifiers.length = 0 ↔ st.DataIdentifiers = [] := List.length_eq_zero
  by_cases h : st.Sid = "" <;>
    by_cases h2 : st.DataIdentifiers = [] <;>
      cases h3 : st.Operation <;>
        simp [marshalStatement, Json.field?, fieldOf, omitEmptyString, omitEmptySlice, omitNil,
          h, h2, h3]

theorem marshalStatement_operation (st : DataProtectionPolicyStatement) :
    (marshalStatement st).field? "Operation" = st.Operation.map marshalOperation := by
  by_cases h : st.Sid = "" <;>
    by_cases h2 : st.DataIdentifiers = [] <;>
      cases h3 : st.Operation <;>
        simp [marshalStatement, Json.field?, fieldOf, omitEmptyString, omitEmptySlice, omitNil,
          h, h2, h3]

theorem marshalOperation_audit (o : DataProtectionPolicyStatementOperation) :
    (marshalOperation o).field? "Audit" = o.Audit.map marshalAudit := by
  cases h : o.Audit <;> cases h2 : o.Deidentify <;>
    simp [marshalOperation, Json.field?, fieldOf, omitNil, h, h2]

theorem marshalAudit_findingsDestination (a : DataProtectionPolicyStatementOperationAudit) :
    (marshalAudit a).field? "FindingsDestination" =
      a.FindingsDestination.map marshalFindingsDestination := by
  cases h : a.FindingsDestination <;> simp [marshalAudit, Json.field?, fieldOf, omitNil, h]

theorem marshalFindingsDestination_fields
    (f : DataProtectionPolicyStatementOperationAuditFindingsDestination) :
    ((marshalFindingsDestination f).field? "CloudWatchLogs").isSome = f.CloudWatchLogs.isSome ∧
    ((marshalFindingsDestination f).field? "Firehose").isSome = f.Firehose.isSome ∧
    ((marshalFindingsDestination f).field? "S3").isSome = f.S3.isSome := by
  cases h : f.CloudWatchLogs <;> cases h2 : f.Firehose <;> cases h3 : f.S3 <;>
    simp [marshalFindingsDestination, Json.field?, fieldOf, omitNil, h, h2, h3]

theorem path?_singleton (j : Json) (k : String) : (j.path? [k]).isSome = (j.field? k).isSome := by
  simp only [Json.path?]
  cases j.field? k <;> rfl

/-- The destination keys of a serialized statement are those of its findings
destination. -/
theorem marshalStatement_destinations (st : DataProtectionPolicyStatement) :
    ((marshalStatement st).path? ["Operation", "Audit", "FindingsDestination",
        "CloudWatchLogs"]).isSome = (cloudWatchLogsOf st).isSome ∧
    ((marshalStatement st).path? ["Operation", "Audit", "FindingsDestination",
        "Firehose"]).isSome = (firehoseOf st).isSome ∧
    ((marshalStatement st).path? ["Operation", "Audit", "FindingsDestination",
        "S3"]).isSome = (s3Of st).isSome := by
  simp only [cloudWatchLogsOf, firehoseOf, s3Of, findingsDestinationOf, auditOf]
  rw [Json.path?, Json.path?, Json.path?, marshalStatement_operation]
  cases st.Operation with
  | none => simp
  | some o =>
    simp only [Option.map_some', Option.some_bind]
    rw [Json.path?, Json.path?, Json.path?, marshalOperation_audit]
    cases o.Audit with
    | none => simp
    | some a =>
      simp only [Option.map_some', Option.some_bind]
      rw [Json.path?, Json.path?, Json.path?, marshalAudit_findingsDestination]
      cases a.FindingsDestination with
      | none => simp
      | some f =>
        simp only [Option.map_some', Option.some_bind, path?_singleton]
        exact marshalFindingsDestination_fields f

theorem expandSid_ne_empty (v : Value) :
    expandSid v ≠ "" ↔ ∃ s, v = Value.str s ∧ s ≠ "" := by
  cases v <;> simp [expandSid, Value.asString]

theorem expandDataIdentifiers_ne_nil (quote : String → String) (hash : String → Int)
    (v : Value) :
    expandDataIdentifiers (specDeps quote hash) v ≠ [] ↔ ∃ s, v = Value.set s ∧ s ≠ [] := by
  cases v <;> simp [expandDataIdentifiers, Value.asSet, specDeps, ExpandStringValueSet]
  rename_i xs
  cases xs <;> simp

theorem statementKeysAgree_of_expand {quote : String → String} {hash : String → Int}
    {m : TfMap} {st : DataProtectionPolicyStatement}
    (h : expandStatement (specDeps quote hash) m = Except.ok st) :
    StatementKeysAgree m (marshalStatement st) := by
  obtain ⟨-, hsid, hdi⟩ := expandStatement_inv h
  obtain ⟨-, -, -, hc, hf, hs, -, -⟩ := expandStatement_presence h
  obtain ⟨jc, jf, js⟩ := marshalStatement_destinations st
  refine ⟨?_, ?_, by rw [jc, hc], by rw [jf, hf], by rw [js, hs]⟩
  · rw [marshalStatement_sid, hsid]
    exact expandSid_ne_empty _
  · rw [marshalStatement_dataIdentifier, hdi]
    exact expandDataIdentifiers_ne_nil quote hash _

theorem marshalDocument_fields (doc : DataProtectionPolicyDocument) :
    (((marshalDocument doc).field? "Description").isSome = true ↔ doc.Description ≠ "") ∧
    ((marshalDocument doc).field? "Configuration").isSome = doc.Configuration.isSome ∧
    (doc.Statements ≠ [] →
      (marshalDocument doc).field? "Statement" =
        some (Json.arr (doc.Statements.map marshalStatement))) := by
  by_cases h1 : doc.Description = "" <;> by_cases h2 : doc.Name = "" <;>
    by_cases h3 : doc.Statements = [] <;> by_cases h4 : doc.Version = "" <;>
      cases h5 : doc.Configuration <;>
        simp [marshalDocument, Json.field?, fieldOf, omitEmptyString, omitEmptySlice, omitNil,
          h1, h2, h3, h4, h5]

/-! ### The read depends on the attributes it takes, and on nothing else -/

theorem lookup_setEntry_ne {k k' : String} (hk : k ≠ k') (v : Value)
    (es : List (String × Value)) : lookup k (setEntry k' v es) = lookup k es := by
  induction es with
  | nil => simp [setEntry, lookup, Ne.symm hk]
  | cons e rest ih =>
    obtain ⟨k'', v''⟩ := e
    by_cases h1 : k'' = k'
    · subst h1
      simp [setEntry, lookup, Ne.symm hk]
    · by_cases h2 : k'' = k
      · subst h2
        simp [setEntry, lookup, hk]
      · simp [setEntry, lookup, h1, h2, ih]

theorem setEntry_idem (k : String) (v : Value) (es : List (String × Value)) :
    setEntry k v (setEntry k v es) = setEntry k v es := by
  induction es with
  | nil => simp [setEntry]
  | cons e rest ih =>
    obtain ⟨k', v'⟩ := e
    by_cases hk : k' = k
    · simp [setEntry, hk]
    · simp [setEntry, hk, ih]

theorem expandDocument_agree (deps : Deps) {d₁ d₂ : ResourceData} (h : AgreeOnRead d₁ d₂) :
    expandDocument deps d₁ = expandDocument deps d₂ := by
  have h1 := h names.AttrDescription (by simp [readAttributes])
  have h2 := h names.AttrName (by simp [readAttributes])
  have h3 := h names.AttrVersion (by simp [readAttributes])
  have h4 := h names.AttrConfiguration (by simp [readAttributes])
  have h5 := h "statement" (by simp [readAttributes])
  simp only [expandDocument, h1, h2, h3, h4, h5]

/-- Storing the json attribute and the id leaves the attributes the read takes
as they were. -/
theorem agreeOnRead_stored (d : ResourceData) (v : Value) (id : String) :
    AgreeOnRead ((d.Set names.AttrJSON v).SetId id) d := by
  intro k hk
  have hne : k ≠ names.AttrJSON := by
    simp only [readAttributes, List.mem_cons, List.mem_singleton, List.not_mem_nil,
      or_false] at hk
    rcases hk with rfl | rfl | rfl | rfl | rfl <;> decide
  simp only [ResourceData.Get, ResourceData.Set, ResourceData.SetId]
  exact lookup_setEntry_ne hne v d.attrs

/-- Whether lines 303-322 store, and what, depends on the document only. -/
theorem validateAndStore_transfer {deps : Deps} {d d' : ResourceData}
    {doc : DataProtectionPolicyDocument}
    (h : validateAndStore deps d doc [] = Except.ok ([], d')) (e : ResourceData) :
    ∃ j, deps.EncodeToStringIndent doc "" "  " = Except.ok j ∧
      validateAndStore deps e doc [] =
        Except.ok ([], (e.Set names.AttrJSON (Value.str j)).SetId
          (Itoa (deps.StringHashcode j))) := by
  unfold validateAndStore at h ⊢
  cases hi0 : index doc.Statements 0 with
  | error p => simp [hi0] at h
  | ok s0 =>
    simp only [hi0] at h ⊢
    cases hd0 : deref s0.Operation with
    | error p => simp [hd0] at h
    | ok op0 =>
      simp only [hd0] at h ⊢
      by_cases c0 : (op0.Audit.isNone || op0.Deidentify.isSome) = true
      · simp [c0, AppendErrorf] at h
      · simp only [c0, Bool.false_eq_true, if_false] at h ⊢
        cases hi1 : index doc.Statements 1 with
        | error p => simp [hi1] at h
        | ok s1 =>
          simp only [hi1] at h ⊢
          cases hd1 : deref s1.Operation with
          | error p => simp [hd1] at h
          | ok op1 =>
            simp only [hd1] at h ⊢
            by_cases c1 : (op1.Audit.isSome || op1.Deidentify.isNone) = true
            · simp [c1, AppendErrorf] at h
            · simp only [c1, Bool.false_eq_true, if_false] at h ⊢
              cases he : deps.EncodeToStringIndent doc "" "  " with
              | error err => simp [he, AppendFromErr] at h
              | ok j => exact ⟨j, rfl, rfl⟩

/-- C1: unwrap distinguishes three cases. For nil and for the empty list it
returns (nil, false); for a list whose first element is nil it returns (an
empty mapping, true); for a list whose first element is a non-nil mapping m it
returns (m, true) with m unchanged. In particular unwrap of the empty list has
present = false while unwrap of the one-element list holding nil has
present = true. -/
theorem unwrap_three_cases :
    unwrap Value.nil = (none, false) ∧
    unwrap (Value.list []) = (none, false) ∧
    (∀ rest : List Value, unwrap (Value.list (Value.nil :: rest)) = (some [], true)) ∧
    (∀ (m : List (String × Value)) (rest : List Value),
      unwrap (Value.list (Value.map (some m) :: rest)) = (some m, true)) ∧
    (unwrap (Value.list [])).2 = false ∧
    (unwrap (Value.list [Value.nil])).2 = true := by
  refine ⟨rfl, rfl, fun _ => rfl, fun _ _ => rfl, rfl, rfl⟩

/-- C2: on a two-statement tree whose statements each carry an operation
block, the read returns the error diagnostic "the first policy statement must
contain only the audit operation" when the operation of statement 0 has no
audit block or has a deidentify block (both together included), and does not
return it when statement 0 has an audit block and no deidentify block. The
tree carries the leaf types of the schema, and the serializer does not itself
fail with that message. -/
theorem first_statement_diagnostic (deps : Deps) (d : ResourceData)
    (m0 m1 : List (String × Value)) (o0 o1 : TfMap)
    (htyped : schemaTyped d = true)
    (hst : d.Get "statement" = Value.list [Value.map (some m0), Value.map (some m1)])
    (h0 : unwrap (lookup "operation" m0) = (o0, true))
    (h1 : unwrap (lookup "operation" m1) = (o1, true))
    (henc : ∀ doc e, deps.EncodeToStringIndent doc "" "  " = Except.error e →
      e ≠ firstStatementMessage) :
    ((present (o0.get "audit") = false ∨ present (o0.get "deidentify") = true) →
      dataSourceDataProtectionPolicyDocumentRead deps d =
        Except.ok ([errorDiagnostic firstStatementMessage], d)) ∧
    ((present (o0.get "audit") = true ∧ present (o0.get "deidentify") = false) →
      ∃ diags d', dataSourceDataProtectionPolicyDocumentRead deps d = Except.ok (diags, d') ∧
        errorDiagnostic firstStatementMessage ∉ diags) := by
  obtain ⟨doc, hdoc⟩ := expandDocument_ok deps d htyped
  obtain ⟨st0, st1, a0, a1, hs, -, -, hop0, hop1, ha0, ha1⟩ := two_statements hdoc hst h0 h1
  have hread : dataSourceDataProtectionPolicyDocumentRead deps d = validateAndStore deps d doc [] := by
    simp [dataSourceDataProtectionPolicyDocumentRead, hdoc]
  rw [hread, validateAndStore_two deps d doc st0 st1 _ _ hs hop0 hop1]
  have hde0 := expandDeidentify_isSome (o0.get "deidentify")
  constructor
  · intro hbad
    have : (a0.isNone || (expandDeidentify (o0.get "deidentify")).isSome) = true := by
      rcases hbad with hb | hb
      · rw [hb] at ha0
        cases a0 <;> simp_all
      · rw [hb] at hde0
        simp [hde0]
    simp [this]
  · rintro ⟨hga, hgd⟩
    rw [hga] at ha0
    rw [hgd] at hde0
    have h0' : (a0.isNone || (expandDeidentify (o0.get "deidentify")).isSome) = false := by
      cases a0 <;> simp_all
    simp only [h0', Bool.false_eq_true, if_false]
    split
    · refine ⟨_, _, rfl, ?_⟩
      simp [errorDiagnostic, messages_differ]
    · cases he : deps.EncodeToStringIndent doc "" "  " with
      | error e =>
        refine ⟨_, _, rfl, ?_⟩
        have := henc doc e he
        simp [errorDiagnostic, this, Ne.symm this]
      | ok j => exact ⟨_, _, rfl, by simp⟩

theorem first_statement_diagnostic_witness :
    dataSourceDataProtectionPolicyDocumentRead sampleDeps
        (sampleTree sampleDeidentifyStatement sampleDeidentifyStatement) =
      Except.ok ([errorDiagnostic firstStatementMessage],
        sampleTree sampleDeidentifyStatement sampleDeidentifyStatement) :=
  (first_statement_diagnostic sampleDeps
    (sampleTree sampleDeidentifyStatement sampleDeidentifyStatement)
    sampleDeidentifyStatement sampleDeidentifyStatement
    (some [("deidentify", Value.list [Value.map (some
          [("mask_config", Value.list [Value.nil])])])])
    (some [("deidentify", Value.list [Value.map (some
          [("mask_config", Value.list [Value.nil])])])])
    (by decide) (by rfl) (by rfl) (by rfl)
    (by intro doc e h; simp [sampleDeps] at h)).1 (Or.inl (by rfl))

/-- C3: on a two-statement tree whose statements each carry an operation
block and whose statement 0 is valid (audit present, deidentify absent), the
read returns the error diagnostic "the second policy statement must contain
only the deidentify operation" if and only if the operation of statement 1 has
an audit block or lacks a deidentify block; when statement 0 is invalid the
first-statement diagnostic is the one returned and the second-statement one is
not. The tree carries the leaf types of the schema, and the serializer does
not itself fail with the second-statement message. -/
theorem second_statement_diagnostic (deps : Deps) (d : ResourceData)
    (m0 m1 : List (String × Value)) (o0 o1 : TfMap)
    (htyped : schemaTyped d = true)
    (hst : d.Get "statement" = Value.list [Value.map (some m0), Value.map (some m1)])
    (h0 : unwrap (lookup "operation" m0) = (o0, true))
    (h1 : unwrap (lookup "operation" m1) = (o1, true))
    (henc : ∀ doc e, deps.EncodeToStringIndent doc "" "  " = Except.error e →
      e ≠ secondStatementMessage) :
    ((present (o0.get "audit") = true ∧ present (o0.get "deidentify") = false) →
      ((∃ diags d', dataSourceDataProtectionPolicyDocumentRead deps d = Except.ok (diags, d') ∧
          errorDiagnostic secondStatementMessage ∈ diags) ↔
        (present (o1.get "audit") = true ∨ present (o1.get "deidentify") = false)) ∧
      ((present (o1.get "audit") = true ∨ present (o1.get "deidentify") = false) →
        dataSourceDataProtectionPolicyDocumentRead deps d =
          Except.ok ([errorDiagnostic secondStatementMessage], d))) ∧
    (¬ (present (o0.get "audit") = true ∧ present (o0.get "deidentify") = false) →
      dataSourceDataProtectionPolicyDocumentRead deps d =
          Except.ok ([errorDiagnostic firstStatementMessage], d) ∧
        errorDiagnostic secondStatementMessage ∉ [errorDiagnostic firstStatementMessage]) := by
  obtain ⟨doc, hdoc⟩ := expandDocument_ok deps d htyped
  obtain ⟨st0, st1, a0, a1, hs, -, -, hop0, hop1, ha0, ha1⟩ := two_statements hdoc hst h0 h1
  have hread : dataSourceDataProtectionPolicyDocumentRead deps d = validateAndStore deps d doc [] := by
    simp [dataSourceDataProtectionPolicyDocumentRead, hdoc]
  rw [hread, validateAndStore_two deps d doc st0 st1 _ _ hs hop0 hop1]
  have hde0 := expandDeidentify_isSome (o0.get "deidentify")
  have hde1 := expandDeidentify_isSome (o1.get "deidentify")
  constructor
  · rintro ⟨hga, hgd⟩
    rw [hga] at ha0
    rw [hgd] at hde0
    have h0' : (a0.isNone || (expandDeidentify (o0.get "deidentify")).isSome) = false := by
      cases a0 <;> simp_all
    simp only [h0', Bool.false_eq_true, if_false]
    by_cases hbad : present (o1.get "audit") = true ∨ present (o1.get "deidentify") = false
    · have h1' : (a1.isSome || (expandDeidentify (o1.get "deidentify")).isNone) = true := by
        rcases hbad with hb | hb
        · rw [hb] at ha1
          simp [ha1]
        · rw [hb] at hde1
          cases hx : expandDeidentify (o1.get "deidentify") <;> simp_all
      simp only [h1', if_true]
      exact ⟨⟨fun _ => hbad, fun _ => ⟨_, _, rfl, by simp⟩⟩, fun _ => trivial⟩
    · have h1' : (a1.isSome || (expandDeidentify (o1.get "deidentify")).isNone) = false := by
        simp only [not_or, Bool.not_eq_true, Bool.not_eq_false] at hbad
        rw [hbad.1] at ha1
        rw [hbad.2] at hde1
        cases hx : expandDeidentify (o1.get "deidentify") <;> simp_all
      simp only [h1', Bool.false_eq_true, if_false]
      refine ⟨⟨?_, fun h => absurd h hbad⟩, fun h => absurd h hbad⟩
      rintro ⟨diags, d', hres, hmem⟩
      exfalso
      cases he : deps.EncodeToStringIndent doc "" "  " with
      | error e =>
        simp only [he, Except.ok.injEq, Prod.mk.injEq] at hres
        rw [← hres.1] at hmem
        have := henc doc e he
        simp [errorDiagnostic, Ne.symm this] at hmem
      | ok j =>
        simp only [he, Except.ok.injEq, Prod.mk.injEq] at hres
        rw [← hres.1] at hmem
        simp at hmem
  · intro hinv
    have h0' : (a0.isNone || (expandDeidentify (o0.get "deidentify")).isSome) = true := by
      by_cases hga : present (o0.get "audit") = true
      · have hgd : present (o0.get "deidentify") = true := by
          by_contra hc
          exact hinv ⟨hga, by simpa using hc⟩
        rw [hgd] at hde0
        simp [hde0]
      · simp only [Bool.not_eq_true] at hga
        rw [hga] at ha0
        cases a0 <;> simp_all
    simp only [h0', if_true, true_and]
    simp [errorDiagnostic, Ne.symm messages_differ]

theorem second_statement_diagnostic_witness :
    dataSourceDataProtectionPolicyDocumentRead sampleDeps
        (sampleTree sampleAuditStatement sampleAuditStatement) =
      Except.ok ([errorDiagnostic secondStatementMessage],
        sampleTree sampleAuditStatement sampleAuditStatement) :=
  ((second_statement_diagnostic sampleDeps
    (sampleTree sampleAuditStatement sampleAuditStatement)
    sampleAuditStatement sampleAuditStatement
    (some [("audit", Value.list [Value.map (some
          [("findings_destination", Value.list [Value.nil])])])])
    (some [("audit", Value.list [Value.map (some
          [("findings_destination", Value.list [Value.nil])])])])
    (by decide) (by rfl) (by rfl) (by rfl)
    (by intro doc e h; simp [sampleDeps] at h)).1 ⟨by rfl, by rfl⟩).2 (Or.inl (by rfl))

/-- C4: a run of the read that returns a diagnostic - the first-statement
one, the second-statement one or the error of the serializer - leaves the
resource data unchanged, so neither the json attribute nor the id is set; a
run that changes the resource data returns no diagnostic, and then the json
attribute is the serialized document and the id the rendering of its hash. -/
theorem validation_aborts_read (deps : Deps) (d d' : ResourceData) (diags : Diagnostics)
    (h : dataSourceDataProtectionPolicyDocumentRead deps d = Except.ok (diags, d')) :
    (∃ doc, expandDocument deps d = Except.ok doc ∧
      ((diags = [errorDiagnostic firstStatementMessage] ∧ d' = d) ∨
       (diags = [errorDiagnostic secondStatementMessage] ∧ d' = d) ∨
       (∃ err, deps.EncodeToStringIndent doc "" "  " = Except.error err ∧
          diags = [errorDiagnostic err] ∧ d' = d) ∨
       (∃ jsonString, deps.EncodeToStringIndent doc "" "  " = Except.ok jsonString ∧
          diags = [] ∧
          d' = (d.Set names.AttrJSON (Value.str jsonString)).SetId
            (Itoa (deps.StringHashcode jsonString))))) ∧
    (diags ≠ [] → d' = d) ∧
    ((d'.attrs ≠ d.attrs ∨ d'.id ≠ d.id) → diags = []) := by
  obtain ⟨doc, hdoc, hv⟩ := read_inv h
  have key := validateAndStore_outcome hv
  refine ⟨⟨doc, hdoc, key⟩, ?_, ?_⟩
  · intro hne
    rcases key with ⟨-, hd⟩ | ⟨-, hd⟩ | ⟨_, -, -, hd⟩ | ⟨_, -, hnil, -⟩
    · exact hd
    · exact hd
    · exact hd
    · exact absurd hnil hne
  · intro hch
    rcases key with ⟨-, hd⟩ | ⟨-, hd⟩ | ⟨_, -, -, hd⟩ | ⟨_, -, hnil, -⟩
    · subst hd; simp at hch
    · subst hd; simp at hch
    · subst hd; simp at hch
    · exact hnil

theorem validation_aborts_read_witness :
    ∃ doc, expandDocument sampleDeps (sampleTree sampleDeidentifyStatement sampleAuditStatement) =
        Except.ok doc ∧
      (([errorDiagnostic firstStatementMessage] = [errorDiagnostic firstStatementMessage] ∧
          sampleTree sampleDeidentifyStatement sampleAuditStatement =
            sampleTree sampleDeidentifyStatement sampleAuditStatement) ∨
       ([errorDiagnostic firstStatementMessage] = [errorDiagnostic secondStatementMessage] ∧
          sampleTree sampleDeidentifyStatement sampleAuditStatement =
            sampleTree sampleDeidentifyStatement sampleAuditStatement) ∨
       (∃ err, sampleDeps.EncodeToStringIndent doc "" "  " = Except.error err ∧
          [errorDiagnostic firstStatementMessage] = [errorDiagnostic err] ∧
          sampleTree sampleDeidentifyStatement sampleAuditStatement =
            sampleTree sampleDeidentifyStatement sampleAuditStatement) ∨
       (∃ jsonString, sampleDeps.EncodeToStringIndent doc "" "  " = Except.ok jsonString ∧
          [errorDiagnostic firstStatementMessage] = [] ∧
          sampleTree sampleDeidentifyStatement sampleAuditStatement =
            ((sampleTree sampleDeidentifyStatement sampleAuditStatement).Set names.AttrJSON
              (Value.str jsonString)).SetId (Itoa (sampleDeps.StringHashcode jsonString)))) :=
  (validation_aborts_read sampleDeps
    (sampleTree sampleDeidentifyStatement sampleAuditStatement)
    (sampleTree sampleDeidentifyStatement sampleAuditStatement)
    [errorDiagnostic firstStatementMessage] (by rfl)).1

/-- C5: expansion preserves block presence. On every successful expansion the
Configuration field is non-nil exactly when unwrap reports the configuration
block present, and for each statement map the loop keeps, in order, each of
Operation, Audit, FindingsDestination, CloudWatchLogs, Firehose, S3,
Deidentify and MaskConfig is non-nil exactly when unwrap reports its block
and every enclosing block present. A deidentify block whose mask_config is
the list holding nil gets a non-nil MaskConfig; one whose mask_config is nil
or the empty list keeps MaskConfig nil. -/
theorem expand_preserves_block_presence (deps : Deps) (d : ResourceData)
    (doc : DataProtectionPolicyDocument) (h : expandDocument deps d = Except.ok doc) :
    doc.Configuration.isSome = present (d.Get names.AttrConfiguration) ∧
    (∃ xs, d.Get "statement" = Value.list xs ∧
      List.Forall₂ PresenceAgrees (statementMaps xs) doc.Statements) ∧
    (∀ block : List (String × Value), lookup "mask_config" block = Value.list [Value.nil] →
      expandDeidentify (Value.list [Value.map (some block)]) = some { MaskConfig := some {} }) ∧
    (∀ block : List (String × Value),
      lookup "mask_config" block = Value.nil ∨ lookup "mask_config" block = Value.list [] →
      expandDeidentify (Value.list [Value.map (some block)]) = some { MaskConfig := none }) := by
  obtain ⟨-, -, -, hc, xs, hxs, hloop⟩ := expandDocument_inv h
  refine ⟨expandConfiguration_isSome hc, ⟨xs, ?_, ?_⟩, ?_, ?_⟩
  · unfold assertList at hxs
    cases hv : d.Get "statement" <;> simp_all [Value.asList]
  · obtain ⟨new, h1, h2⟩ := statementLoop_forall₂ deps xs [] _ hloop
    simp only [List.nil_append] at h1
    rw [h1]
    exact h2.imp (fun _ _ hst => expandStatement_presence hst)
  · intro block hb
    simp [expandDeidentify, expandMaskConfig, unwrap, Value.isNil, Value.asList, Value.asMap,
      TfMap.get, hb]
  · intro block hb
    rcases hb with hb | hb <;>
      simp [expandDeidentify, expandMaskConfig, unwrap, Value.isNil, Value.asList, Value.asMap,
        TfMap.get, hb]

theorem expand_preserves_block_presence_witness :
    expandDocument sampleDeps (sampleTree sampleAuditStatement sampleDeidentifyStatement) =
      Except.ok sampleDocument ∧
    ∃ xs, (sampleTree sampleAuditStatement sampleDeidentifyStatement).Get "statement" =
        Value.list xs ∧
      List.Forall₂ PresenceAgrees (statementMaps xs) sampleDocument.Statements :=
  ⟨by rfl,
    (expand_preserves_block_presence sampleDeps
      (sampleTree sampleAuditStatement sampleDeidentifyStatement) sampleDocument (by rfl)).2.1⟩

/-- C6: for a custom_data_identifier list inside a present configuration
block, on every successful expansion Configuration.CustomDataIdentifiers is,
in input order, one identifier per element that is a map, carrying the name
and regex of that map; its length is the number of map elements. An element
that is not a map never makes the expansion fail: when every map element
carries its two strings the configuration expands, and dropping the elements
that are not maps beforehand leaves the result of the loop unchanged. -/
theorem custom_data_identifiers_expanded (deps : Deps) (d : ResourceData) (m : TfMap)
    (xs : List Value)
    (hu : unwrap (d.Get names.AttrConfiguration) = (m, true))
    (hl : m.get "custom_data_identifier" = Value.list xs) :
    (∀ doc, expandDocument deps d = Except.ok doc →
      ∃ ids, doc.Configuration = some { CustomDataIdentifiers := ids } ∧
        List.Forall₂ IdentifierOf (mappingElements xs) ids ∧
        ids.length = (xs.filter (fun x => x.asMap.isSome)).length) ∧
    ((∀ tm ∈ mappingElements xs,
        hasString tm names.AttrName = true ∧ hasString tm "regex" = true) →
      ∃ ids, expandConfiguration (d.Get names.AttrConfiguration) =
        Except.ok (some { CustomDataIdentifiers := ids })) ∧
    (∀ acc, customDataIdentifierLoop acc xs =
      customDataIdentifierLoop acc (xs.filter (fun x => x.asMap.isSome))) := by
  have hexp : expandConfiguration (d.Get names.AttrConfiguration) =
      if xs.length > 0 then
        match customDataIdentifierLoop [] xs with
        | Except.error p => Except.error p
        | Except.ok ids => Except.ok (some { CustomDataIdentifiers := ids })
      else Except.ok (some { CustomDataIdentifiers := [] }) := by
    simp only [expandConfiguration, hu, hl, Value.asList]
  refine ⟨?_, ?_, customDataIdentifierLoop_filter xs⟩
  · intro doc h
    obtain ⟨-, -, -, hc, -⟩ := expandDocument_inv h
    rw [hexp] at hc
    by_cases hlen : xs.length > 0
    · simp only [hlen, if_true] at hc
      cases hloop : customDataIdentifierLoop [] xs with
      | error p => simp [hloop] at hc
      | ok ids =>
        simp only [hloop, Except.ok.injEq] at hc
        obtain ⟨new, h1, h2⟩ := customDataIdentifierLoop_forall₂ xs [] ids hloop
        simp only [List.nil_append] at h1
        subst h1
        exact ⟨ids, hc.symm, h2, by rw [← mappingElements_length]; exact h2.length_eq.symm⟩
    · simp only [hlen, if_false, Except.ok.injEq] at hc
      have hnil : xs = [] := by
        cases xs with
        | nil => rfl
        | cons _ _ => simp at hlen
      subst hnil
      exact ⟨[], hc.symm, by simp [mappingElements], rfl⟩
  · intro hwf
    rw [hexp]
    obtain ⟨ids, hids⟩ := customDataIdentifierLoop_ok xs [] (all_typed_of_mappingElements hwf)
    by_cases hlen : xs.length > 0
    · exact ⟨ids, by simp [hlen, hids]⟩
    · exact ⟨[], by simp [hlen]⟩

theorem custom_data_identifiers_expanded_witness :
    ∃ ids, expandConfiguration (sampleConfiguredTree.Get names.AttrConfiguration) =
      Except.ok (some { CustomDataIdentifiers := ids }) :=
  (custom_data_identifiers_expanded sampleDeps sampleConfiguredTree
    (some [("custom_data_identifier", Value.list
              [Value.map (some [("name", Value.str "a"), ("regex", Value.str "x+")]),
               Value.str "malformed",
               Value.map (some [("name", Value.str "b"), ("regex", Value.str "y+")])])])
    [Value.map (some [("name", Value.str "a"), ("regex", Value.str "x+")]),
               Value.str "malformed",
               Value.map (some [("name", Value.str "b"), ("regex", Value.str "y+")])]
    (by rfl) (by rfl)).2.1 (by decide)

/-- C9: the read is deterministic and its identifier is derived from content
only. In every run without a diagnostic the json attribute is the serializer's
text of the document expanded from the attribute tree of that run, and the id
is the decimal rendering of the hash code of that text. Two such runs whose
trees hold the same description, name, version, configuration and statement
leave the same json and the same id, whatever else the resource data held
(an earlier id, an earlier json); on equal attribute trees they leave equal
resource data; two runs that leave the same json leave the same id; and
reading again from what a run left returns no diagnostic and changes
nothing. -/
theorem read_deterministic (deps : Deps) (d₁ d₂ d₁' d₂' : ResourceData)
    (h₁ : dataSourceDataProtectionPolicyDocumentRead deps d₁ = Except.ok ([], d₁'))
    (h₂ : dataSourceDataProtectionPolicyDocumentRead deps d₂ = Except.ok ([], d₂')) :
    (∃ doc₁ j₁ doc₂ j₂,
      expandDocument deps d₁ = Except.ok doc₁ ∧
      deps.EncodeToStringIndent doc₁ "" "  " = Except.ok j₁ ∧
      d₁'.Get names.AttrJSON = Value.str j₁ ∧ d₁'.id = Itoa (deps.StringHashcode j₁) ∧
      expandDocument deps d₂ = Except.ok doc₂ ∧
      deps.EncodeToStringIndent doc₂ "" "  " = Except.ok j₂ ∧
      d₂'.Get names.AttrJSON = Value.str j₂ ∧ d₂'.id = Itoa (deps.StringHashcode j₂) ∧
      (AgreeOnRead d₁ d₂ → doc₁ = doc₂ ∧ j₁ = j₂)) ∧
    (AgreeOnRead d₁ d₂ →
      d₁'.Get names.AttrJSON = d₂'.Get names.AttrJSON ∧ d₁'.id = d₂'.id) ∧
    (d₁.attrs = d₂.attrs → d₁' = d₂') ∧
    (d₁'.Get names.AttrJSON = d₂'.Get names.AttrJSON → d₁'.id = d₂'.id) ∧
    dataSourceDataProtectionPolicyDocumentRead deps d₁' = Except.ok ([], d₁') := by
  obtain ⟨doc₁, j₁, hdoc₁, hj₁, hd₁, hg₁, hi₁⟩ := read_success h₁
  obtain ⟨doc₂, j₂, hdoc₂, hj₂, hd₂, hg₂, hi₂⟩ := read_success h₂
  have hagree : AgreeOnRead d₁ d₂ → doc₁ = doc₂ ∧ j₁ = j₂ := by
    intro ha
    have hdoc : doc₁ = doc₂ := by
      rw [expandDocument_agree deps ha, hdoc₂] at hdoc₁
      simpa using hdoc₁.symm
    subst hdoc
    rw [hj₁] at hj₂
    exact ⟨rfl, by simpa using hj₂⟩
  refine ⟨⟨doc₁, j₁, doc₂, j₂, hdoc₁, hj₁, hg₁, hi₁, hdoc₂, hj₂, hg₂, hi₂, hagree⟩,
    ?_, ?_, ?_, ?_⟩
  · intro ha
    obtain ⟨-, hj⟩ := hagree ha
    subst hj
    exact ⟨by rw [hg₁, hg₂], by rw [hi₁, hi₂]⟩
  · intro heq
    have ha : AgreeOnRead d₁ d₂ := by
      intro k _
      simp only [ResourceData.Get, heq]
    obtain ⟨-, hj⟩ := hagree ha
    subst hj
    rw [hd₁, hd₂]
    simp only [ResourceData.Set, ResourceData.SetId, heq]
  · intro hjson
    rw [hg₁, hg₂] at hjson
    simp only [Value.str.injEq] at hjson
    rw [hi₁, hi₂, hjson]
  · obtain ⟨doc, hdoc, hv⟩ := read_inv h₁
    have hsame : doc = doc₁ := by
      rw [hdoc₁] at hdoc
      simpa using hdoc.symm
    subst hsame
    obtain ⟨j, hj, hstore⟩ := validateAndStore_transfer hv d₁'
    have hjj : j = j₁ := by
      rw [hj₁] at hj
      simpa using hj.symm
    subst hjj
    have hexp : expandDocument deps d₁' = Except.ok doc := by
      rw [hd₁, expandDocument_agree deps (agreeOnRead_stored d₁ _ _), hdoc₁]
    simp only [dataSourceDataProtectionPolicyDocumentRead, hexp, hstore]
    congr 2
    rw [hd₁]
    simp only [ResourceData.Set, ResourceData.SetId, setEntry_idem]

theorem read_deterministic_witness :
    sampleEarlierStored.Get names.AttrJSON = sampleFirstRun.Get names.AttrJSON ∧
      sampleEarlierStored.id = sampleFirstRun.id :=
  (read_deterministic sampleDeps sampleEarlierTree sampleConfiguredTree
    sampleEarlierStored sampleFirstRun (by rfl) (by rfl)).2.1
    (by
      intro k hk
      simp only [readAttributes, List.mem_cons, List.mem_singleton, List.not_mem_nil,
        or_false] at hk
      rcases hk with rfl | rfl | rfl | rfl | rfl <;> rfl)

/-- C10: the serialized output is optional-by-omission. On every run that
passes validation, with the serializer and the set conversion as modelled
from the spec, the json attribute is the indented text of a document tree in
which the key Description appears iff description is a non-empty string,
Configuration iff the configuration block is present, and, for each statement
map in order, Sid iff its sid is a non-empty string, DataIdentifier iff its
data_identifiers set is non-empty, and each of CloudWatchLogs, Firehose and S3
iff the corresponding findings-destination block is present. -/
theorem serialized_optional_by_omission (quote : String → String) (hash : String → Int)
    (d d' : ResourceData)
    (h : dataSourceDataProtectionPolicyDocumentRead (specDeps quote hash) d =
      Except.ok ([], d')) :
    ∃ doc xs js, expandDocument (specDeps quote hash) d = Except.ok doc ∧
      d'.Get names.AttrJSON = Value.str (renderIndent quote "" "  " 0 (marshalDocument doc)) ∧
      d.Get "statement" = Value.list xs ∧
      (((marshalDocument doc).field? "Description").isSome = true ↔
        ∃ s, d.Get names.AttrDescription = Value.str s ∧ s ≠ "") ∧
      ((marshalDocument doc).field? "Configuration").isSome =
        present (d.Get names.AttrConfiguration) ∧
      (marshalDocument doc).field? "Statement" = some (Json.arr js) ∧
      List.Forall₂ StatementKeysAgree (statementMaps xs) js := by
  obtain ⟨doc, j, hdoc, hj, -, hg, -⟩ := read_success h
  obtain ⟨hdesc, -, -, hc, xs, hxs, hloop⟩ := expandDocument_inv hdoc
  have hne : doc.Statements ≠ [] := by
    intro hnil
    simp [dataSourceDataProtectionPolicyDocumentRead, hdoc, validateAndStore, index, hnil] at h
  obtain ⟨f1, f2, f3⟩ := marshalDocument_fields doc
  simp only [specDeps, EncodeToStringIndent, Except.ok.injEq] at hj
  refine ⟨doc, xs, doc.Statements.map marshalStatement, hdoc, by rw [hg, hj], ?_, ?_, ?_, f3 hne, ?_⟩
  · unfold assertList at hxs
    cases hv : d.Get "statement" <;> simp_all [Value.asList]
  · rw [f1]
    unfold assertString at hdesc
    cases hv : d.Get names.AttrDescription <;> simp_all [Value.asString]
  · rw [f2, expandConfiguration_isSome hc]
  · obtain ⟨new, h1, h2⟩ := statementLoop_forall₂ (specDeps quote hash) xs [] _ hloop
    simp only [List.nil_append] at h1
    rw [h1, List.forall₂_map_right_iff]
    exact h2.imp (fun _ _ hst => statementKeysAgree_of_expand hst)

theorem serialized_optional_by_omission_witness :
    ∃ doc xs js,
      expandDocument (specDeps sampleQuote (fun s => s.length)) sampleConfiguredTree =
        Except.ok doc ∧
      sampleStored.Get names.AttrJSON =
        Value.str (renderIndent sampleQuote "" "  " 0 (marshalDocument doc)) ∧
      sampleConfiguredTree.Get "statement" = Value.list xs ∧
      (((marshalDocument doc).field? "Description").isSome = true ↔
        ∃ s, sampleConfiguredTree.Get names.AttrDescription = Value.str s ∧ s ≠ "") ∧
      ((marshalDocument doc).field? "Configuration").isSome =
        present (sampleConfiguredTree.Get names.AttrConfiguration) ∧
      (marshalDocument doc).field? "Statement" = some (Json.arr js) ∧
      List.Forall₂ StatementKeysAgree (statementMaps xs) js :=
  serialized_optional_by_omission sampleQuote (fun s => s.length) sampleConfiguredTree
    sampleStored (by rfl)

/-! ### Two statements, operations present or absent -/

theorem two_statements_list {deps : Deps} {d : ResourceData} {doc : DataProtectionPolicyDocument}
    {m0 m1 : List (String × Value)}
    (h : expandDocument deps d = Except.ok doc)
    (hst : d.Get "statement" = Value.list [Value.map (some m0), Value.map (some m1)]) :
    ∃ st0 st1, doc.Statements = [st0, st1] ∧
      expandStatement deps (some m0) = Except.ok st0 ∧
      expandStatement deps (some m1) = Except.ok st1 := by
  obtain ⟨-, -, -, -, xs, hxs, hloop⟩ := expandDocument_inv h
  simp only [hst, assertList, Value.asList, Except.ok.injEq] at hxs
  subst hxs
  simp only [statementLoop, Value.asMap] at hloop
  cases e0 : expandStatement deps (some m0) with
  | error p => simp [e0] at hloop
  | ok st0 =>
    cases e1 : expandStatement deps (some m1) with
    | error p => simp [e0, e1] at hloop
    | ok st1 =>
      simp only [e0, e1, List.nil_append, List.cons_append, Except.ok.injEq] at hloop
      exact ⟨st0, st1, hloop.symm, rfl, rfl⟩

theorem operation_nil_of_absent {deps : Deps} {m : TfMap} {st : DataProtectionPolicyStatement}
    (h : expandStatement deps m = Except.ok st) (habs : present (m.get "operation") = false) :
    st.Operation = none := by
  have hop := (expandStatement_inv h).1
  unfold expandOperation at hop
  unfold present at habs
  rcases hu : unwrap (m.get "operation") with ⟨o, b⟩
  rw [hu] at habs
  simp only at habs
  subst habs
  simp only [hu, Except.ok.injEq] at hop
  exact hop.symm

theorem audit_isNone_of_absent {a : Option DataProtectionPolicyStatementOperationAudit}
    {v : Value} (h : a.isSome = present v) (habs : present v = false) : a.isNone = true := by
  rw [habs] at h
  cases a <;> simp_all

theorem deidentify_isNone_of_absent {v : Value} (habs : present v = false) :
    (expandDeidentify v).isNone = true := by
  have h := expandDeidentify_isSome v
  rw [habs] at h
  cases hx : expandDeidentify v <;> simp_all

/-- C12: under the structural guarantees of the schema the read is total. On
every tree that carries the leaf types of the schema (description, name and
version strings, and the required strings of every present cloud_watch_logs,
firehose, s3 and custom_data_identifier mapping) and whose statement list is
two non-nil mappings, each with its operation block present, the expansion
raises no panic, Statements[0] and Statements[1] are in range, both Operation
pointers are non-nil, and the read returns. -/
theorem read_total (deps : Deps) (d : ResourceData)
    (m0 m1 : List (String × Value)) (o0 o1 : TfMap)
    (htyped : schemaTyped d = true)
    (hst : d.Get "statement" = Value.list [Value.map (some m0), Value.map (some m1)])
    (h0 : unwrap (lookup "operation" m0) = (o0, true))
    (h1 : unwrap (lookup "operation" m1) = (o1, true)) :
    ∃ doc st0 st1 op0 op1,
      expandDocument deps d = Except.ok doc ∧
      index doc.Statements 0 = Except.ok st0 ∧ deref st0.Operation = Except.ok op0 ∧
      index doc.Statements 1 = Except.ok st1 ∧ deref st1.Operation = Except.ok op1 ∧
      ∃ diags d', dataSourceDataProtectionPolicyDocumentRead deps d = Except.ok (diags, d') := by
  obtain ⟨doc, hdoc⟩ := expandDocument_ok deps d htyped
  obtain ⟨st0, st1, a0, a1, hs, -, -, hop0, hop1, -, -⟩ := two_statements hdoc hst h0 h1
  refine ⟨doc, st0, st1, ⟨a0, expandDeidentify (o0.get "deidentify")⟩,
    ⟨a1, expandDeidentify (o1.get "deidentify")⟩, hdoc, by simp [index, hs],
    by simp [deref, hop0], by simp [index, hs], by simp [deref, hop1], ?_⟩
  have hread : dataSourceDataProtectionPolicyDocumentRead deps d = validateAndStore deps d doc [] := by
    simp [dataSourceDataProtectionPolicyDocumentRead, hdoc]
  rw [hread, validateAndStore_two deps d doc st0 st1 _ _ hs hop0 hop1]
  split
  · exact ⟨_, _, rfl⟩
  · split
    · exact ⟨_, _, rfl⟩
    · cases he : deps.EncodeToStringIndent doc "" "  " with
      | error e => exact ⟨_, _, rfl⟩
      | ok j => exact ⟨_, _, rfl⟩

theorem read_total_witness :
    ∃ doc st0 st1 op0 op1,
      expandDocument sampleDeps (sampleTree sampleAuditStatement sampleDeidentifyStatement) =
        Except.ok doc ∧
      index doc.Statements 0 = Except.ok st0 ∧ deref st0.Operation = Except.ok op0 ∧
      index doc.Statements 1 = Except.ok st1 ∧ deref st1.Operation = Except.ok op1 ∧
      ∃ diags d', dataSourceDataProtectionPolicyDocumentRead sampleDeps
        (sampleTree sampleAuditStatement sampleDeidentifyStatement) = Except.ok (diags, d') :=
  read_total sampleDeps (sampleTree sampleAuditStatement sampleDeidentifyStatement)
    sampleAuditStatement sampleDeidentifyStatement
    (some [("audit", Value.list [Value.map (some
          [("findings_destination", Value.list [Value.nil])])])])
    (some [("deidentify", Value.list [Value.map (some
          [("mask_config", Value.list [Value.nil])])])])
    (by decide) (by rfl) (by rfl) (by rfl)

/-- C13, as stated, fails: on the two-statement tree whose statement 0 has an
empty list for its operation block the read returns no diagnostic; it raises a
nil pointer dereference. -/
theorem absent_operation_faults :
    present (lookup "operation" sampleNoOperationStatement) = false ∧
    dataSourceDataProtectionPolicyDocumentRead sampleDeps
        (sampleTree sampleNoOperationStatement sampleDeidentifyStatement) =
      Except.error Panic.nilPointerDereference :=
  ⟨rfl, rfl⟩

/-- C13, amended: on a two-statement tree that carries the leaf types of the
schema, a statement whose operation block is present but holds neither an
audit nor a deidentify block yields the validation diagnostic that names it:
the first-statement message when it is statement 0, the second-statement
message when statement 0 is valid and it is statement 1. When the operation
block itself is absent, which the schema excludes by requiring it, no
diagnostic is returned: the Operation pointer stays nil and the check of that
statement dereferences it. -/
theorem empty_operation_diagnostic (deps : Deps) (d : ResourceData)
    (m0 m1 : List (String × Value))
    (htyped : schemaTyped d = true)
    (hst : d.Get "statement" = Value.list [Value.map (some m0), Value.map (some m1)]) :
    (∀ o0 o1, unwrap (lookup "operation" m0) = (o0, true) →
      unwrap (lookup "operation" m1) = (o1, true) →
      ((present (o0.get "audit") = false ∧ present (o0.get "deidentify") = false) →
        dataSourceDataProtectionPolicyDocumentRead deps d =
          Except.ok ([errorDiagnostic firstStatementMessage], d)) ∧
      ((present (o0.get "audit") = true ∧ present (o0.get "deidentify") = false) →
        (present (o1.get "audit") = false ∧ present (o1.get "deidentify") = false) →
        dataSourceDataProtectionPolicyDocumentRead deps d =
          Except.ok ([errorDiagnostic secondStatementMessage], d))) ∧
    (present (lookup "operation" m0) = false →
      dataSourceDataProtectionPolicyDocumentRead deps d =
        Except.error Panic.nilPointerDereference) ∧
    (∀ o0, unwrap (lookup "operation" m0) = (o0, true) →
      (present (o0.get "audit") = true ∧ present (o0.get "deidentify") = false) →
      present (lookup "operation" m1) = false →
      dataSourceDataProtectionPolicyDocumentRead deps d =
        Except.error Panic.nilPointerDereference) := by
  obtain ⟨doc, hdoc⟩ := expandDocument_ok deps d htyped
  have hread : dataSourceDataProtectionPolicyDocumentRead deps d = validateAndStore deps d doc [] := by
    simp [dataSourceDataProtectionPolicyDocumentRead, hdoc]
  refine ⟨?_, ?_, ?_⟩
  · intro o0 o1 h0 h1
    obtain ⟨st0, st1, a0, a1, hs, -, -, hop0, hop1, ha0, ha1⟩ := two_statements hdoc hst h0 h1
    rw [hread, validateAndStore_two deps d doc st0 st1 _ _ hs hop0 hop1]
    have hde0 := expandDeidentify_isSome (o0.get "deidentify")
    constructor
    · rintro ⟨hna, -⟩
      have : (a0.isNone || (expandDeidentify (o0.get "deidentify")).isSome) = true := by
        simp [audit_isNone_of_absent ha0 hna]
      simp [this]
    · rintro ⟨hga, hgd⟩ ⟨hna1, hnd1⟩
      rw [hga] at ha0
      rw [hgd] at hde0
      have h0' : (a0.isNone || (expandDeidentify (o0.get "deidentify")).isSome) = false := by
        cases a0 <;> simp_all
      have h1' : (a1.isSome || (expandDeidentify (o1.get "deidentify")).isNone) = true := by
        simp [deidentify_isNone_of_absent hnd1]
      simp [h0', h1']
  · intro habs
    obtain ⟨st0, st1, hs, e0, -⟩ := two_statements_list hdoc hst
    have hnil : st0.Operation = none := operation_nil_of_absent e0 habs
    rw [hread]
    simp [validateAndStore, index, hs, deref, hnil]
  · intro o0 h0 hvalid habs
    obtain ⟨st0, st1, hs, e0, e1⟩ := two_statements_list hdoc hst
    have hnil : st1.Operation = none := operation_nil_of_absent e1 habs
    obtain ⟨a0, ha0, hop0⟩ := expandOperation_inv (v := lookup "operation" m0) h0
      (expandStatement_inv e0).1
    have hs0 := expandAudit_isSome ha0
    have hde0 := expandDeidentify_isSome (o0.get "deidentify")
    rw [hvalid.1] at hs0
    rw [hvalid.2] at hde0
    have h0' : (a0.isNone || (expandDeidentify (o0.get "deidentify")).isSome) = false := by
      cases a0 <;> simp_all
    rw [hread]
    simp [validateAndStore, index, hs, deref, hop0, hnil, h0']

theorem empty_operation_diagnostic_witness :
    dataSourceDataProtectionPolicyDocumentRead sampleDeps
        (sampleTree sampleEmptyOperationStatement sampleDeidentifyStatement) =
      Except.ok ([errorDiagnostic firstStatementMessage],
        sampleTree sampleEmptyOperationStatement sampleDeidentifyStatement) :=
  ((empty_operation_diagnostic sampleDeps
    (sampleTree sampleEmptyOperationStatement sampleDeidentifyStatement)
    sampleEmptyOperationStatement sampleDeidentifyStatement (by decide) (by rfl)).1
    (some []) (some [("deidentify", Value.list [Value.map (some
          [("mask_config", Value.list [Value.nil])])])]) (by rfl) (by rfl)).1 ⟨by rfl, by rfl⟩

/-- C14: unwrap falls through on a shape mismatch and looks only at the first
element. For every value that is not a list, and for every non-empty list
whose first element is neither nil nor a non-nil mapping, it returns
(nil, false); and for a non-empty list the result is the same whatever
elements follow the first. -/
theorem unwrap_falls_through :
    (∀ v : Value, v.asList = none → unwrap v = (none, false)) ∧
    (∀ (first : Value) (rest : List Value), first ≠ Value.nil →
      (∀ m : List (String × Value), first ≠ Value.map (some m)) →
      unwrap (Value.list (first :: rest)) = (none, false)) ∧
    (∀ (first : Value) (rest rest' : List Value),
      unwrap (Value.list (first :: rest)) = unwrap (Value.list (first :: rest'))) := by
  refine ⟨?_, ?_, ?_⟩
  · intro v hv
    cases v <;> simp_all [unwrap, Value.isNil, Value.asList]
  · intro first rest hnil hmap
    cases first with
    | nil => exact absurd rfl hnil
    | map m =>
      cases m with
      | none => rfl
      | some es => exact absurd rfl (hmap es)
    | str s => rfl
    | bool b => rfl
    | int n => rfl
    | list xs => rfl
    | set xs => rfl
  · intro first rest rest'
    rfl

theorem unwrap_falls_through_witness :
    unwrap (Value.str "audit") = (none, false) ∧
    unwrap (Value.list [Value.int 3, Value.map (some [])]) = (none, false) :=
  ⟨unwrap_falls_through.1 (Value.str "audit") (by rfl),
    unwrap_falls_through.2.1 (Value.int 3) [Value.map (some [])]
      (by intro h; cases h) (by intro m h; cases h)⟩

end Logs

namespace ServiceCatalog

open Logs (Value setEntry Panic Diagnostics assertString AppendErrorf)

theorem foldl_appendSlice {α β : Type} (g : α → β) (xs : List α) :
    ∀ acc : List β,
      xs.foldl (fun tfList x => appendSlice tfList (g x)) (some acc) = some (acc ++ xs.map g) := by
  induction xs with
  | nil => intro acc; simp
  | cons x rest ih =>
    intro acc
    have hstep : appendSlice (some acc) (g x) = some (acc ++ [g x]) := rfl
    rw [List.foldl_cons, hstep, ih]
    simp

/-- C7: flattenProvisioningArtifactDetails maps its input element-wise and in
order. For an empty input it returns nil, not a list holding an empty
mapping; for a non-empty input it returns the list of the flattened details:
the same length, and at each position the flattening of the detail at that
position. -/
theorem flatten_details_elementwise (timeString : Time → String) :
    flattenProvisioningArtifactDetails timeString [] = none ∧
    ∀ (x : ProvisioningArtifactDetail) (rest : List ProvisioningArtifactDetail),
      ∃ ys, flattenProvisioningArtifactDetails timeString (x :: rest) = some ys ∧
        ys = (x :: rest).map
          (fun a => Value.map (some (flattenProvisioningArtifactDetail timeString a))) ∧
        ys.length = (x :: rest).length ∧
        ∀ i, ys.get? i = ((x :: rest).get? i).map
          (fun a => Value.map (some (flattenProvisioningArtifactDetail timeString a))) := by
  refine ⟨rfl, fun x rest => ⟨_, ?_, rfl, by simp, fun i => ?_⟩⟩
  · have hstep : appendSlice (none : Option (List Value))
        (Value.map (some (flattenProvisioningArtifactDetail timeString x))) =
        some [Value.map (some (flattenProvisioningArtifactDetail timeString x))] := rfl
    simp only [flattenProvisioningArtifactDetails, List.length_cons, Nat.add_one_ne_zero, if_false]
    rw [List.foldl_cons, hstep, foldl_appendSlice
      (fun a => Value.map (some (flattenProvisioningArtifactDetail timeString a))) rest]
    simp
  · rw [List.get?_eq_getElem?, List.get?_eq_getElem?, List.getElem?_map]

/-- C8, as stated, fails: the detail with every pointer nil and both
enumerations empty is flattened to a mapping that holds the keys guidance and
type, each with the empty string. -/
theorem flatten_emits_empty_enumerations :
    emptyDetail.Guidance = "" ∧
    entry? "guidance" (flattenProvisioningArtifactDetail sampleTimeString emptyDetail) =
      some (Value.str "") ∧
    emptyDetail.Type_ = "" ∧
    entry? "type" (flattenProvisioningArtifactDetail sampleTimeString emptyDetail) =
      some (Value.str "") :=
  ⟨rfl, rfl, rfl, rfl⟩

/-- C8, amended: flattenProvisioningArtifactDetail emits active, created_time,
description, id and name exactly when the pointer field Active, CreatedTime,
Description, Id or Name is non-nil, holding the value pointed to (the time
through its String rendering); it always emits guidance and type, holding the
strings of Guidance and Type, empty or not; it emits no other key. -/
theorem flatten_detail_entries (timeString : Time → String)
    (apiObject : ProvisioningArtifactDetail) :
    entry? "active" (flattenProvisioningArtifactDetail timeString apiObject) =
      apiObject.Active.map Value.bool ∧
    entry? "created_time" (flattenProvisioningArtifactDetail timeString apiObject) =
      apiObject.CreatedTime.map (fun t => Value.str (timeString t)) ∧
    entry? "description" (flattenProvisioningArtifactDetail timeString apiObject) =
      apiObject.Description.map Value.str ∧
    entry? "guidance" (flattenProvisioningArtifactDetail timeString apiObject) =
      some (Value.str apiObject.Guidance) ∧
    entry? "id" (flattenProvisioningArtifactDetail timeString apiObject) =
      apiObject.Id.map Value.str ∧
    entry? "name" (flattenProvisioningArtifactDetail timeString apiObject) =
      apiObject.Name.map Value.str ∧
    entry? "type" (flattenProvisioningArtifactDetail timeString apiObject) =
      some (Value.str apiObject.Type_) ∧
    ∀ k, k ∈ keys (flattenProvisioningArtifactDetail timeString apiObject) →
      k ∈ ["active", "created_time", "description", "guidance", "id", "name", "type"] := by
  obtain ⟨a, c, de, g, i, n, sr, t⟩ := apiObject
  cases a <;> cases c <;> cases de <;> cases i <;> cases n <;>
    simp [flattenProvisioningArtifactDetail, setEntry, entry?, keys, names.AttrCreatedTime,
      names.AttrDescription, names.AttrID, names.AttrName, names.AttrType]

/-- The branch of lines 97-99: when `d.Set` returns an error the read returns
the diagnostic of line 98, the id being set and nothing recorded. -/
theorem read_of_set_error (c : Client) (d : ResourceData)
    (productID acceptLanguage : String) (output : ListProvisioningArtifactsOutput) (e : String)
    (hp : d.Get "product_id" = Value.str productID)
    (hl : d.Get "accept_language" = Value.str acceptLanguage)
    (hout : c.ListProvisioningArtifacts
      { AcceptLanguage := some acceptLanguage, ProductId := some productID } = Except.ok output)
    (hset : c.setError "provisioning_artifact_details"
      (sliceValue (flattenProvisioningArtifactDetails c.timeString
        output.ProvisioningArtifactDetails)) = some e) :
    dataSourceProvisioningArtifactsRead c d =
      Except.ok ([Logs.errorDiagnostic (settingMessage e)], d.SetId productID) := by
  simp [dataSourceProvisioningArtifactsRead, assertString, Value.asString, hp, hl, hout,
    hset, AppendErrorf, Logs.errorDiagnostic]

theorem entry?_setEntry_ne {k k' : String} (hk : k ≠ k') (v : Value)
    (es : List (String × Value)) : entry? k (setEntry k' v es) = entry? k es := by
  induction es with
  | nil => simp [setEntry, entry?, Ne.symm hk]
  | cons e rest ih =>
    obtain ⟨k'', v''⟩ := e
    by_cases h1 : k'' = k'
    · subst h1
      simp [setEntry, entry?, Ne.symm hk]
    · by_cases h2 : k'' = k
      · subst h2
        simp [setEntry, entry?, hk]
      · simp [setEntry, entry?, h1, h2, ih]

theorem entry?_setEntry_self (k : String) (v : Value) (es : List (String × Value)) :
    entry? k (setEntry k v es) = some v := by
  induction es with
  | nil => simp [setEntry, entry?]
  | cons e rest ih =>
    obtain ⟨k', v'⟩ := e
    by_cases hk : k' = k
    · simp [setEntry, entry?, hk]
    · simp [setEntry, entry?, hk, ih]

/-- C11: the read forwards a failure of the external call and otherwise
identifies the result by its natural key. If ListProvisioningArtifacts returns
an error e, the read returns exactly the error diagnostic "listing Service
Catalog Provisioning Artifacts: e" and leaves the resource data unchanged, so
neither the id nor provisioning_artifact_details is set. If the call
succeeds, the read returns no diagnostic, the id is exactly the product_id
input, and the value set for provisioning_artifact_details is
flattenProvisioningArtifactDetails of the returned details; the configuration
is untouched. The two inputs are strings, as the schema types them, and d.Set
accepts the flattened list, which fits the schema of the attribute. -/
theorem provisioning_artifacts_read (c : Client) (d : ResourceData)
    (productID acceptLanguage : String)
    (hp : d.Get "product_id" = Value.str productID)
    (hl : d.Get "accept_language" = Value.str acceptLanguage) :
    (∀ e, c.ListProvisioningArtifacts
          { AcceptLanguage := some acceptLanguage, ProductId := some productID } =
        Except.error e →
      dataSourceProvisioningArtifactsRead c d =
        Except.ok ([Logs.errorDiagnostic (listingMessage e)], d)) ∧
    (∀ output, c.ListProvisioningArtifacts
          { AcceptLanguage := some acceptLanguage, ProductId := some productID } =
        Except.ok output →
      c.setError "provisioning_artifact_details"
          (sliceValue (flattenProvisioningArtifactDetails c.timeString
            output.ProvisioningArtifactDetails)) = none →
      ∃ d', dataSourceProvisioningArtifactsRead c d = Except.ok ([], d') ∧
        d'.id = productID ∧
        entry? "provisioning_artifact_details" d'.written =
          some (sliceValue (flattenProvisioningArtifactDetails c.timeString
            output.ProvisioningArtifactDetails)) ∧
        (∀ k, k ≠ "provisioning_artifact_details" →
          entry? k d'.written = entry? k d.written) ∧
        d'.config = d.config) := by
  refine ⟨?_, ?_⟩
  · intro e he
    simp [dataSourceProvisioningArtifactsRead, assertString, Value.asString, hp, hl, he,
      AppendErrorf, Logs.errorDiagnostic]
  · intro output hout haccept
    refine ⟨(d.SetId productID).Set "provisioning_artifact_details"
      (sliceValue (flattenProvisioningArtifactDetails c.timeString
        output.ProvisioningArtifactDetails)), ?_, rfl, ?_, ?_, rfl⟩
    · simp only [dataSourceProvisioningArtifactsRead, assertString, Value.asString, hp, hl,
        hout, haccept]
    · simp [ResourceData.Set, ResourceData.SetId, entry?_setEntry_self]
    · intro k hk
      simp only [ResourceData.Set, ResourceData.SetId]
      exact entry?_setEntry_ne hk _ _

theorem provisioning_artifacts_read_witness :
    dataSourceProvisioningArtifactsRead failingClient sampleProduct =
        Except.ok ([Logs.errorDiagnostic (listingMessage "AccessDeniedException")],
          sampleProduct) ∧
    ∃ d', dataSourceProvisioningArtifactsRead sampleClient sampleProduct = Except.ok ([], d') ∧
      d'.id = "prod-1" ∧
      entry? "provisioning_artifact_details" d'.written =
        some (sliceValue
          (flattenProvisioningArtifactDetails sampleClient.timeString [emptyDetail])) ∧
      d'.config = sampleProduct.config :=
  ⟨(provisioning_artifacts_read failingClient sampleProduct "prod-1" "en" (by rfl)
      (by rfl)).1 "AccessDeniedException" (by rfl),
    match (provisioning_artifacts_read sampleClient sampleProduct "prod-1" "en" (by rfl)
      (by rfl)).2 { ProvisioningArtifactDetails := [emptyDetail] } (by rfl) (by rfl) with
    | ⟨d', h1, h2, h3, _, h5⟩ => ⟨d', h1, h2, h3, h5⟩⟩

end ServiceCatalog

namespace MediaLive

/-- The check returns nil exactly when no multiplex of the state has a lookup
that fails with an error `tfresource.NotFound` does not recognise. -/
theorem destroyLoop_eq_none (env : Lookups) (resources : List ResourceState) :
    destroyLoop env resources = none ↔
      ∀ rs ∈ resources, rs.Type_ = "aws_medialive_multiplex" →
        env.NotFound (env.FindInputSecurityGroupByID rs.Primary.ID) = true ∨
        env.FindInputSecurityGroupByID rs.Primary.ID = none := by
  induction resources with
  | nil => simp [destroyLoop]
  | cons rs rest ih =>
    simp only [destroyLoop, List.mem_cons, forall_eq_or_imp]
    by_cases ht : rs.Type_ = "aws_medialive_multiplex"
    · by_cases hn : env.NotFound (env.FindInputSecurityGroupByID rs.Primary.ID) = true
      · simp [ht, hn, ih]
      · cases hf : env.FindInputSecurityGroupByID rs.Primary.ID with
        | none => simp [ht, hf, ih]
        | some e =>
          rw [hf] at hn
          simp [ht, hf, hn]
    · simp [ht, ih]

/-- C15, the code at the failing input: for a state with one multiplex whose
lookup succeeds (the nil error, so the resource still exists) the check
returns nil, where the claim has it return a non-nil error. -/
theorem destroy_check_passes_existing :
    everythingExists.FindInputSecurityGroupByID "1234567" = none ∧
    testAccCheckMultiplexDestroy everythingExists oneMultiplex = none :=
  ⟨rfl, rfl⟩

end MediaLive
